import Mathlib

/-!
Verification development for the WebExtension permission/state engine of this
WebKit excerpt (`WebExtensionContext`): the grant/deny/expire permission and
match-pattern maps, URL-to-permission resolution with caching, and
injected-content matching.

The definitions below are a shallow embedding of the C++ sources:
  * `Source/WebKit/UIProcess/Extensions/glib/WebExtensionContextGlib.cpp`
    (grant/deny, expiry sweeps, signal emission),
  * the shared `WebExtensionContext.cpp` (permission resolution, the per-URL
    cache, `setPermissionState`, `hasAccessToAllURLs`/`hasAccessToAllHosts`,
    `hasInjectedContentForURL`),
  * the GLib API layer `WebKitWebExtensionContext.cpp` (getters and status
    functions).

`WallTime` values are modelled explicitly (including the NaN sentinel used by
the tracked next-expiration dates).  `WebExtensionMatchPattern` is not part of
the excerpt, so patterns are kept abstract: a pattern is an element of an
arbitrary type `P` with decidable equality together with an interface providing
`matchesURL`, `matchesAllHosts`, `matchesAllURLs` and `matchesPattern` — these
are exactly the operations the permission engine invokes on patterns.  URLs are
likewise abstract (`U`), with the predicates the engine queries on them
(`isEmpty`, `isURLForThisExtension`, valid scheme) provided by an environment
structure.
-/

/-- Expiration timestamps stored in the permission maps.  The C++ code stores
`WallTime` values and asserts they are never NaN when inserted, so a stored
expiration is either a finite time or positive infinity. -/
inductive ETime where
  | fin (t : Int)
  | inf
deriving DecidableEq, Repr

/-- Tracked next-expiration dates (`m_next...ExpirationDate` members).  These
are `WallTime` doubles that can additionally be NaN, the sentinel meaning
"unknown, must sweep". -/
inductive WTime where
  | nan
  | fin (t : Int)
  | inf
deriving DecidableEq, Repr

/-- Inclusion of stored expirations into tracked `WallTime` values. -/
def ETime.toW : ETime → WTime
  | .fin t => .fin t
  | .inf => .inf

/-- The comparison `entry.value <= currentTime` from `removeExpired`. -/
def ETime.leNow : ETime → Int → Bool
  | .fin t, now => t ≤ now
  | .inf, _ => false

/-- The comparison `entry.value > currentTime` (negation of `leNow`, used in
statements about unexpired entries). -/
def ETime.gtNow (e : ETime) (now : Int) : Bool := !e.leNow now

/-- Strict comparison between stored expirations, as used by
`if (entry.value < nextExpirationDate)` while the tracked date is being
recomputed (at that point it is never NaN). -/
def ETime.ltE : ETime → ETime → Bool
  | .fin a, .fin b => a < b
  | .fin _, .inf => true
  | .inf, _ => false

/-- Lower the running minimum by one entry, exactly as the `removeIf` bodies
do. -/
def ETime.minE (a b : ETime) : ETime := if a.ltE b then a else b

/-- Whether a tracked `WallTime` is the NaN sentinel. -/
def WTime.isNan : WTime → Bool
  | .nan => true
  | _ => false

/-- The comparison `nextExpirationDate > currentTime` with IEEE semantics
(NaN compares false). -/
def WTime.gtNow : WTime → Int → Bool
  | .nan, _ => false
  | .fin t, now => now < t
  | .inf, _ => true

/-- The comparison `m_next...ExpirationDate > expirationDate` used by the grant
and deny operations (NaN compares false). -/
def WTime.gtE : WTime → ETime → Bool
  | .nan, _ => false
  | .fin a, .fin b => b < a
  | .fin _, .inf => false
  | .inf, .fin _ => true
  | .inf, .inf => false

/-- Non-strict comparison of tracked dates with stored expirations, used to
state the lower-bound invariant on tracked next-expiration dates (NaN compares
false). -/
def WTime.leE : WTime → ETime → Bool
  | .nan, _ => false
  | .fin a, .fin b => a ≤ b
  | .fin _, .inf => true
  | .inf, .fin _ => false
  | .inf, .inf => true

/-- `WebExtensionContext::PermissionState`. -/
inductive PermState where
  | unknown
  | deniedImplicitly
  | deniedExplicitly
  | requestedImplicitly
  | requestedExplicitly
  | grantedImplicitly
  | grantedExplicitly
deriving DecidableEq, Repr

/-- The `OptionSet<PermissionStateOptions>` argument. -/
structure StateOptions where
  skipRequested : Bool := false
  includeOptional : Bool := false
  requestedWithTabs : Bool := false
deriving DecidableEq, Repr

/-- The operations the permission engine invokes on `WebExtensionMatchPattern`
objects (that class is not part of the excerpt; its behaviour stays abstract).
`matchesPatternIgnorePaths p q` is `p->matchesPattern(q, { IgnorePaths })`. -/
structure PatternIface (P U : Type) where
  matchesURL : P → U → Bool
  matchesAllHosts : P → Bool
  matchesAllURLs : P → Bool
  matchesPatternIgnorePaths : P → P → Bool

/-- The per-extension environment the permission engine consults: URL
predicates (`url.isEmpty()`, `isURLForThisExtension`,
`WebExtensionMatchPattern::validSchemes().contains(url.protocol())`) and the
extension's static data (`WebExtension::supportedPermissions()`,
`hasRequestedPermission`, `optionalPermissions`, `allRequestedMatchPatterns`,
`optionalPermissionMatchPatterns`), all of which live outside the excerpt. -/
structure ExtEnv (P U : Type) where
  urlIsEmpty : U → Bool
  urlForThisExtension : U → Bool
  urlHasValidScheme : U → Bool
  supportedPermissions : List String
  hasRequestedPermission : String → Bool
  optionalPermissions : List String
  allRequestedMatchPatterns : List P
  optionalPermissionMatchPatterns : List P

/-- The slice of `WebExtensionTab` the permission resolution reads. -/
structure TabInfo (P : Type) where
  hasTemporaryPermission : Bool
  temporaryPattern : Option P

/-- One injected-content entry (include and exclude match patterns), as read by
`hasInjectedContentForURL`. -/
structure InjectedContentEntry (P : Type) where
  includeMatchPatterns : List P
  excludeMatchPatterns : List P

/-- Association-list membership of a key. -/
def keyMem {K V : Type} [DecidableEq K] (m : List (K × V)) (k : K) : Bool :=
  m.any (fun kv => decide (kv.1 = k))

/-- `HashMap::add`: insert only when the key is absent; the Bool is
`isNewEntry`. -/
def mapAdd {K V : Type} [DecidableEq K] (m : List (K × V)) (k : K) (v : V) :
    List (K × V) × Bool :=
  if keyMem m k then (m, false) else (m ++ [(k, v)], true)

/-- `HashMap::set`: insert or overwrite. -/
def mapSet {K V : Type} [DecidableEq K] (m : List (K × V)) (k : K) (v : V) :
    List (K × V) :=
  if keyMem m k then m.map (fun kv => if kv.1 = k then (k, v) else kv)
  else m ++ [(k, v)]

/-- `HashMap::get` with a default for absent keys. -/
def mapGetD {K V : Type} [DecidableEq K] (m : List (K × V)) (k : K) (d : V) : V :=
  match m.find? (fun kv => decide (kv.1 = k)) with
  | some kv => kv.2
  | none => d

/-- `HashMap::remove` / key deletion. -/
def mapErase {K V : Type} [DecidableEq K] (m : List (K × V)) (k : K) :
    List (K × V) :=
  m.filter (fun kv => !decide (kv.1 = k))

/- Signal name constants from `WebExtensionContextGlib.cpp` (note: the two
match-pattern were-granted/denied constants are singular there, unlike the
names registered by `webkit_web_extension_context_class_init`). -/

def grantedPermissionsWereRemovedSignal : String :=
  "granted-permissions-were-removed"

def grantedPermissionMatchPatternsWereRemovedSignal : String :=
  "granted-permission-match-patterns-were-removed"

def deniedPermissionsWereRemovedSignal : String :=
  "denied-permissions-were-removed"

def deniedPermissionMatchPatternsWereRemovedSignal : String :=
  "denied-permission-match-patterns-were-removed"

def permissionsWereDeniedSignal : String := "permissions-were-denied"

def permissionsWereGrantedSignal : String := "permissions-were-granted"

def permissionMatchPatternsWereDeniedSignal : String :=
  "permission-match-pattern-were-denied"

def permissionMatchPatternsWereGrantedSignal : String :=
  "permission-match-pattern-were-granted"

/-- The signal names registered on `WebKitWebExtensionContext` by
`webkit_web_extension_context_class_init`. -/
def registeredContextSignals : List String :=
  [ "granted-permissions-were-removed",
    "granted-permission-match-patterns-were-removed",
    "denied-permissions-were-removed",
    "denied-permission-match-patterns-were-removed",
    "permissions-were-denied",
    "permissions-were-granted",
    "permission-match-patterns-were-denied",
    "permission-match-patterns-were-granted" ]

/-- `permissionsDidChange` emits via
`g_signal_emit_by_name(delegate, makeString("notify::", notificationName))`:
the actually-emitted name carries a `notify::` prefix. -/
def emittedSignalName (s : String) : String := "notify::" ++ s

/-- The mutable permission state of a `WebExtensionContext` (the members the
permission engine reads and writes).  Field names follow the C++ members.
`emittedSignals` logs the names passed to `g_signal_emit_by_name`, in order. -/
structure Ctx (P U : Type) where
  m_grantedPermissions : List (String × ETime)
  m_deniedPermissions : List (String × ETime)
  m_grantedPermissionMatchPatterns : List (P × ETime)
  m_deniedPermissionMatchPatterns : List (P × ETime)
  m_nextGrantedPermissionsExpirationDate : WTime
  m_nextDeniedPermissionsExpirationDate : WTime
  m_nextGrantedPermissionMatchPatternsExpirationDate : WTime
  m_nextDeniedPermissionMatchPatternsExpirationDate : WTime
  m_cachedPermissionURLs : List U
  m_cachedPermissionStates : List (U × PermState)
  emittedSignals : List String

/-- A freshly created context: all maps empty, all tracked next-expiration
dates NaN (their initializers), empty cache. -/
def initCtx {P U : Type} : Ctx P U :=
  ⟨[], [], [], [], .nan, .nan, .nan, .nan, [], [], []⟩

/-- `clearCachedPermissionStates`. -/
def clearCachedPermissionStates {P U : Type} (ctx : Ctx P U) : Ctx P U :=
  { ctx with m_cachedPermissionURLs := [], m_cachedPermissionStates := [] }

/-- `permissionsDidChange(const String&, const PermissionsSet&)`: emit when
the set is non-empty. -/
def permissionsDidChangePerms {P U : Type} (ctx : Ctx P U) (name : String)
    (perms : List String) : Ctx P U :=
  if perms.isEmpty then ctx
  else { ctx with emittedSignals := ctx.emittedSignals ++ [emittedSignalName name] }

/-- `permissionsDidChange(const String&, const MatchPatternSet&)`: clears the
per-URL permission cache, then emits. -/
def permissionsDidChangePats {P U : Type} (ctx : Ctx P U) (name : String)
    (pats : List P) : Ctx P U :=
  if pats.isEmpty then ctx
  else
    let c := clearCachedPermissionStates ctx
    { c with emittedSignals := c.emittedSignals ++ [emittedSignalName name] }

/-- The `removeIf` body of `removeExpired`: returns the kept entries, the
removed keys, and the recomputed minimum expiration among kept entries
(infinity when none are kept). -/
def sweepMap {K : Type} (m : List (K × ETime)) (now : Int) :
    List (K × ETime) × List K × ETime :=
  match m with
  | [] => ([], [], .inf)
  | (k, v) :: rest =>
    let r := sweepMap rest now
    if v.leNow now then (r.1, k :: r.2.1, r.2.2)
    else ((k, v) :: r.1, r.2.1, ETime.minE v r.2.2)

/-- `WebExtensionContext::removeExpired` on one map: if the tracked date is not
NaN and has not passed, return unchanged; otherwise sweep, retracking the next
expiration.  Returns (map, tracked date, removed keys). -/
def removeExpired {K : Type} (m : List (K × ETime)) (next : WTime) (now : Int) :
    List (K × ETime) × WTime × List K :=
  if !next.isNan && next.gtNow now then (m, next, [])
  else
    let r := sweepMap m now
    (r.1, r.2.2.toW, r.2.1)

/-- `WebExtensionContext::grantedPermissions()` (the expiry-sweeping
accessor). -/
def grantedPermissions {P U : Type} (ctx : Ctx P U) (now : Int) : Ctx P U :=
  let r := removeExpired ctx.m_grantedPermissions
    ctx.m_nextGrantedPermissionsExpirationDate now
  permissionsDidChangePerms
    { ctx with
      m_grantedPermissions := r.1
      m_nextGrantedPermissionsExpirationDate := r.2.1 }
    grantedPermissionsWereRemovedSignal r.2.2

/-- `WebExtensionContext::deniedPermissions()`. -/
def deniedPermissions {P U : Type} (ctx : Ctx P U) (now : Int) : Ctx P U :=
  let r := removeExpired ctx.m_deniedPermissions
    ctx.m_nextDeniedPermissionsExpirationDate now
  permissionsDidChangePerms
    { ctx with
      m_deniedPermissions := r.1
      m_nextDeniedPermissionsExpirationDate := r.2.1 }
    deniedPermissionsWereRemovedSignal r.2.2

/-- `WebExtensionContext::grantedPermissionMatchPatterns()`. -/
def grantedPermissionMatchPatterns {P U : Type} (ctx : Ctx P U) (now : Int) :
    Ctx P U :=
  let r := removeExpired ctx.m_grantedPermissionMatchPatterns
    ctx.m_nextGrantedPermissionMatchPatternsExpirationDate now
  permissionsDidChangePats
    { ctx with
      m_grantedPermissionMatchPatterns := r.1
      m_nextGrantedPermissionMatchPatternsExpirationDate := r.2.1 }
    grantedPermissionMatchPatternsWereRemovedSignal r.2.2

/-- `WebExtensionContext::deniedPermissionMatchPatterns()`. -/
def deniedPermissionMatchPatterns {P U : Type} (ctx : Ctx P U) (now : Int) :
    Ctx P U :=
  let r := removeExpired ctx.m_deniedPermissionMatchPatterns
    ctx.m_nextDeniedPermissionMatchPatternsExpirationDate now
  permissionsDidChangePats
    { ctx with
      m_deniedPermissionMatchPatterns := r.1
      m_nextDeniedPermissionMatchPatternsExpirationDate := r.2.1 }
    deniedPermissionMatchPatternsWereRemovedSignal r.2.2

/-- The `removeIf` body of `removePermissions`: drop entries whose key is in
`toRemove`, recompute the minimum expiration among kept entries.  Returns
(kept, removed keys, minimum). -/
def removeScanPerms {K : Type} [DecidableEq K] (m : List (K × ETime))
    (toRemove : List K) : List (K × ETime) × List K × ETime :=
  match m with
  | [] => ([], [], .inf)
  | (k, v) :: rest =>
    let r := removeScanPerms rest toRemove
    if toRemove.any (fun x => decide (x = k)) then (r.1, k :: r.2.1, r.2.2)
    else ((k, v) :: r.1, r.2.1, ETime.minE v r.2.2)

/-- Modelled from the spec: `WebExtensionContext::removePermissions` is not in
the excerpt (only its callers `removeGrantedPermissions` and
`removeDeniedPermissions` are).  The spec describes the engine as maintaining
grant/deny/expire permission maps; removal drops the given permissions from the
map and retracks the next-expiration date exactly like `removeExpired` does
(reset to infinity, then lowered to the minimum of the kept entries); nothing
happens when the set to remove is empty.  Returns (map, tracked date, removed
keys). -/
def removePermissions {K : Type} [DecidableEq K] (m : List (K × ETime))
    (toRemove : List K) (next : WTime) : List (K × ETime) × WTime × List K :=
  if toRemove.isEmpty then (m, next, [])
  else
    let r := removeScanPerms m toRemove
    (r.1, r.2.2.toW, r.2.1)

/-- The `removeIf` body of `removePermissionMatchPatterns`: drop entries whose
key is in `toRemove`, and — unless `equalityOnly` — also entries matched by a
pattern in `toRemove` (via `matchesPattern` with `IgnorePaths`). -/
def removeScanPats {P U : Type} [DecidableEq P] (I : PatternIface P U)
    (m : List (P × ETime)) (toRemove : List P) (equalityOnly : Bool) :
    List (P × ETime) × List P × ETime :=
  match m with
  | [] => ([], [], .inf)
  | (k, v) :: rest =>
    let r := removeScanPats I rest toRemove equalityOnly
    if toRemove.any (fun x => decide (x = k)) then (r.1, k :: r.2.1, r.2.2)
    else if !equalityOnly && toRemove.any (fun x => I.matchesPatternIgnorePaths x k) then
      (r.1, k :: r.2.1, r.2.2)
    else ((k, v) :: r.1, r.2.1, ETime.minE v r.2.2)

/-- Modelled from the spec: `WebExtensionContext::removePermissionMatchPatterns`
is not in the excerpt (only its callers are).  Like `removePermissions`, but on
the pattern maps, and when `equalityOnly` is off it additionally removes stored
patterns that one of the given patterns matches (paths ignored). -/
def removePermissionMatchPatterns {P U : Type} [DecidableEq P]
    (I : PatternIface P U) (m : List (P × ETime)) (toRemove : List P)
    (equalityOnly : Bool) (next : WTime) :
    List (P × ETime) × WTime × List P :=
  if toRemove.isEmpty then (m, next, [])
  else
    let r := removeScanPats I m toRemove equalityOnly
    (r.1, r.2.2.toW, r.2.1)

/-- `WebExtensionContext::removeGrantedPermissions` (GLib backend): forwards to
`removePermissions` with the granted-permissions map and the
`granted-permissions-were-removed` signal name. -/
def removeGrantedPermissions {P U : Type} (ctx : Ctx P U)
    (toRemove : List String) : Ctx P U :=
  let r := removePermissions ctx.m_grantedPermissions toRemove
    ctx.m_nextGrantedPermissionsExpirationDate
  permissionsDidChangePerms
    { ctx with
      m_grantedPermissions := r.1
      m_nextGrantedPermissionsExpirationDate := r.2.1 }
    grantedPermissionsWereRemovedSignal r.2.2

/-- `WebExtensionContext::removeDeniedPermissions` (GLib backend).  Note: the
source passes `WebExtensionContextGrantedPermissionMatchPatternsWereRemovedSignal`
as the notification name here, not the denied-permissions signal. -/
def removeDeniedPermissions {P U : Type} (ctx : Ctx P U)
    (toRemove : List String) : Ctx P U :=
  let r := removePermissions ctx.m_deniedPermissions toRemove
    ctx.m_nextDeniedPermissionsExpirationDate
  permissionsDidChangePerms
    { ctx with
      m_deniedPermissions := r.1
      m_nextDeniedPermissionsExpirationDate := r.2.1 }
    grantedPermissionMatchPatternsWereRemovedSignal r.2.2

/-- `WebExtensionContext::removeGrantedPermissionMatchPatterns` (GLib backend).
The source first clears matching temporary tab permissions and afterwards calls
`removeInjectedContent`; tabs and injected-content registration are outside
this model, which keeps the effect on the permission maps and signals. -/
def removeGrantedPermissionMatchPatterns {P U : Type} [DecidableEq P]
    (I : PatternIface P U) (ctx : Ctx P U) (toRemove : List P)
    (equalityOnly : Bool) : Ctx P U :=
  let r := removePermissionMatchPatterns I ctx.m_grantedPermissionMatchPatterns
    toRemove equalityOnly ctx.m_nextGrantedPermissionMatchPatternsExpirationDate
  permissionsDidChangePats
    { ctx with
      m_grantedPermissionMatchPatterns := r.1
      m_nextGrantedPermissionMatchPatternsExpirationDate := r.2.1 }
    grantedPermissionMatchPatternsWereRemovedSignal r.2.2

/-- `WebExtensionContext::removeDeniedPermissionMatchPatterns` (GLib backend).
`updateInjectedContent` is outside this model. -/
def removeDeniedPermissionMatchPatterns {P U : Type} [DecidableEq P]
    (I : PatternIface P U) (ctx : Ctx P U) (toRemove : List P)
    (equalityOnly : Bool) : Ctx P U :=
  let r := removePermissionMatchPatterns I ctx.m_deniedPermissionMatchPatterns
    toRemove equalityOnly ctx.m_nextDeniedPermissionMatchPatternsExpirationDate
  permissionsDidChangePats
    { ctx with
      m_deniedPermissionMatchPatterns := r.1
      m_nextDeniedPermissionMatchPatternsExpirationDate := r.2.1 }
    deniedPermissionMatchPatternsWereRemovedSignal r.2.2

/-- The insertion loop shared by the grant and deny operations: add each entry
(`HashMap::add`, not overwriting existing keys), collecting the keys that were
actually added. -/
def addAllScan {K : Type} [DecidableEq K] (m : List (K × ETime)) (ks : List K)
    (exp : ETime) : List (K × ETime) × List K :=
  match ks with
  | [] => (m, [])
  | k :: rest =>
    let a := mapAdd m k exp
    let r := addAllScan a.1 rest exp
    (r.1, if a.2 then k :: r.2 else r.2)

/-- `WebExtensionContext::grantPermissions` (GLib backend). -/
def grantPermissions {P U : Type} (ctx : Ctx P U) (perms : List String)
    (exp : ETime) : Ctx P U :=
  if perms.isEmpty then ctx
  else
    let next := if ctx.m_nextGrantedPermissionsExpirationDate.gtE exp then exp.toW
      else ctx.m_nextGrantedPermissionsExpirationDate
    let r := addAllScan ctx.m_grantedPermissions perms exp
    let ctx' : Ctx P U := { ctx with
      m_grantedPermissions := r.1
      m_nextGrantedPermissionsExpirationDate := next }
    if r.2.isEmpty then ctx'
    else
      let ctx'' := removeDeniedPermissions ctx' r.2
      permissionsDidChangePerms ctx'' permissionsWereGrantedSignal r.2

/-- `WebExtensionContext::denyPermissions` (GLib backend). -/
def denyPermissions {P U : Type} (ctx : Ctx P U) (perms : List String)
    (exp : ETime) : Ctx P U :=
  if perms.isEmpty then ctx
  else
    let next := if ctx.m_nextDeniedPermissionsExpirationDate.gtE exp then exp.toW
      else ctx.m_nextDeniedPermissionsExpirationDate
    let r := addAllScan ctx.m_deniedPermissions perms exp
    let ctx' : Ctx P U := { ctx with
      m_deniedPermissions := r.1
      m_nextDeniedPermissionsExpirationDate := next }
    if r.2.isEmpty then ctx'
    else
      let ctx'' := removeGrantedPermissions ctx' r.2
      permissionsDidChangePerms ctx'' permissionsWereDeniedSignal r.2

/-- `WebExtensionContext::grantPermissionMatchPatterns` (GLib backend). -/
def grantPermissionMatchPatterns {P U : Type} [DecidableEq P]
    (I : PatternIface P U) (ctx : Ctx P U) (pats : List P) (exp : ETime)
    (equalityOnly : Bool) : Ctx P U :=
  if pats.isEmpty then ctx
  else
    let next := if ctx.m_nextGrantedPermissionMatchPatternsExpirationDate.gtE exp
      then exp.toW else ctx.m_nextGrantedPermissionMatchPatternsExpirationDate
    let r := addAllScan ctx.m_grantedPermissionMatchPatterns pats exp
    let ctx' : Ctx P U := { ctx with
      m_grantedPermissionMatchPatterns := r.1
      m_nextGrantedPermissionMatchPatternsExpirationDate := next }
    if r.2.isEmpty then ctx'
    else
      let ctx'' := removeDeniedPermissionMatchPatterns I ctx' r.2 equalityOnly
      permissionsDidChangePats ctx'' permissionMatchPatternsWereGrantedSignal r.2

/-- `WebExtensionContext::denyPermissionMatchPatterns` (GLib backend). -/
def denyPermissionMatchPatterns {P U : Type} [DecidableEq P]
    (I : PatternIface P U) (ctx : Ctx P U) (pats : List P) (exp : ETime)
    (equalityOnly : Bool) : Ctx P U :=
  if pats.isEmpty then ctx
  else
    let next := if ctx.m_nextDeniedPermissionMatchPatternsExpirationDate.gtE exp
      then exp.toW else ctx.m_nextDeniedPermissionMatchPatternsExpirationDate
    let r := addAllScan ctx.m_deniedPermissionMatchPatterns pats exp
    let ctx' : Ctx P U := { ctx with
      m_deniedPermissionMatchPatterns := r.1
      m_nextDeniedPermissionMatchPatternsExpirationDate := next }
    if r.2.isEmpty then ctx'
    else
      let ctx'' := removeGrantedPermissionMatchPatterns I ctx' r.2 equalityOnly
      permissionsDidChangePats ctx'' permissionMatchPatternsWereDeniedSignal r.2

/-- `WebExtensionContext::setPermissionState(PermissionState, const String&,
WallTime)`.  The implicit/requested states hit `ASSERT_NOT_REACHED` and do
nothing. -/
def setPermissionStateForPermission {P U : Type} (ctx : Ctx P U)
    (state : PermState) (permission : String) (exp : ETime) : Ctx P U :=
  match state with
  | .deniedExplicitly => denyPermissions ctx [permission] exp
  | .unknown =>
    let c := removeGrantedPermissions ctx [permission]
    removeDeniedPermissions c [permission]
  | .grantedExplicitly => grantPermissions ctx [permission] exp
  | _ => ctx

/-- `WebExtensionContext::setPermissionState(PermissionState,
const WebExtensionMatchPattern&, WallTime)`: equality-only removal is used
exactly when the pattern matches all hosts. -/
def setPermissionStateForPattern {P U : Type} [DecidableEq P]
    (I : PatternIface P U) (ctx : Ctx P U) (state : PermState) (pat : P)
    (exp : ETime) : Ctx P U :=
  let equalityOnly := I.matchesAllHosts pat
  match state with
  | .deniedExplicitly => denyPermissionMatchPatterns I ctx [pat] exp equalityOnly
  | .unknown =>
    let c := removeGrantedPermissionMatchPatterns I ctx [pat] equalityOnly
    removeDeniedPermissionMatchPatterns I c [pat] equalityOnly
  | .grantedExplicitly => grantPermissionMatchPatterns I ctx [pat] exp equalityOnly
  | _ => ctx

/-- `WebExtensionContext::permissionState(const String&, WebExtensionTab*,
OptionSet<PermissionStateOptions>)`.  Accessing the maps sweeps expired
entries, so the context is threaded through and returned. -/
def permissionStateForPermission {P U : Type} (env : ExtEnv P U) (ctx : Ctx P U)
    (permission : String) (tab : Option (TabInfo P)) (opts : StateOptions)
    (now : Int) : PermState × Ctx P U :=
  if (match tab with
      | some t => decide (permission = "tabs") && t.hasTemporaryPermission
      | none => false) then
    (.grantedExplicitly, ctx)
  else if !(env.supportedPermissions.any (fun q => decide (q = permission))) then
    (.unknown, ctx)
  else
    let c1 := deniedPermissions ctx now
    if keyMem c1.m_deniedPermissions permission then (.deniedExplicitly, c1)
    else
      let c2 := grantedPermissions c1 now
      if keyMem c2.m_grantedPermissions permission then (.grantedExplicitly, c2)
      else if opts.skipRequested then (.unknown, c2)
      else if env.hasRequestedPermission permission then (.requestedExplicitly, c2)
      else if opts.includeOptional
          && env.optionalPermissions.any (fun q => decide (q = permission)) then
        (.requestedImplicitly, c2)
      else (.unknown, c2)

/-- `WebExtensionContext::hasPermission(const String&, ...)`: adds
`SkipRequestedPermissions` and maps granted states to `true`. -/
def hasPermissionForPermission {P U : Type} (env : ExtEnv P U) (ctx : Ctx P U)
    (permission : String) (tab : Option (TabInfo P)) (opts : StateOptions)
    (now : Int) : Bool × Ctx P U :=
  let r := permissionStateForPermission env ctx permission tab
    { opts with skipRequested := true } now
  (match r.1 with
   | .grantedImplicitly | .grantedExplicitly => true
   | _ => false, r.2)

/-- Modelled from the spec: `maximumCachedPermissionResults` is declared in
`WebExtensionConstants.h`, which is not part of the excerpt; the spec only
requires the per-URL cache to be bounded by it (WebKit uses 256). -/
def maximumCachedPermissionResults : Nat := 256

/-- The `cacheResultAndReturn` lambda of `permissionState(const URL&, ...)`:
move the URL to the end of the LRU list, store the state, and when the bound is
exceeded evict the first (least recently used) URL. -/
def cacheResultAndReturn {P U : Type} [DecidableEq U] (ctx : Ctx P U) (u : U)
    (s : PermState) : PermState × Ctx P U :=
  let urls := (ctx.m_cachedPermissionURLs.filter (fun x => !decide (x = u))) ++ [u]
  let states := mapSet ctx.m_cachedPermissionStates u s
  if urls.length ≤ maximumCachedPermissionResults then
    (s, { ctx with m_cachedPermissionURLs := urls, m_cachedPermissionStates := states })
  else
    match urls with
    | [] => (s, { ctx with m_cachedPermissionURLs := [], m_cachedPermissionStates := states })
    | f :: rest =>
      (s, { ctx with
        m_cachedPermissionURLs := rest
        m_cachedPermissionStates := mapErase states f })

/-- The `urlMatchesPatternIgnoringWildcardHostPatterns` check applied across a
pattern map: some stored pattern that does not match all hosts matches the
URL. -/
def anySpecificHostMatch {P U : Type} (I : PatternIface P U)
    (pats : List (P × ETime)) (u : U) : Bool :=
  pats.any (fun pe => !I.matchesAllHosts pe.1 && I.matchesURL pe.1 u)

/-- The `urlMatchesWildcardHostPatterns` check applied across a pattern map:
some stored all-hosts pattern matches the URL. -/
def anyAllHostsMatch {P U : Type} (I : PatternIface P U)
    (pats : List (P × ETime)) (u : U) : Bool :=
  pats.any (fun pe => I.matchesAllHosts pe.1 && I.matchesURL pe.1 u)

/-- The requested-pattern loop at the end of `permissionState(const URL&, ...)`:
per pattern, a host-specific match yields `RequestedExplicitly` and an
all-hosts match `RequestedImplicitly`. -/
def requestedPatternsState {P U : Type} (I : PatternIface P U) (pats : List P)
    (u : U) : Option PermState :=
  match pats with
  | [] => none
  | p :: rest =>
    if !I.matchesAllHosts p && I.matchesURL p u then some .requestedExplicitly
    else if I.matchesAllHosts p && I.matchesURL p u then some .requestedImplicitly
    else requestedPatternsState I rest u

/-- `WebExtensionMatchPattern::patternsMatchURL`. -/
def patternsMatchURL {P U : Type} (I : PatternIface P U) (pats : List P)
    (u : U) : Bool :=
  pats.any (fun p => I.matchesURL p u)

/-- Whether a state is one of the two requested states (the cache-hit test
`cachedState == RequestedExplicitly || cachedState == RequestedImplicitly`). -/
def isRequestedState : PermState → Bool
  | .requestedExplicitly => true
  | .requestedImplicitly => true
  | _ => false

/-- The body of `permissionState(const URL&, ...)` after the early URL checks,
the sweeps and a cache miss: the two denied-before-granted, specific-before-
wildcard pattern phases, then the requested fallbacks, caching the result. -/
def resolveAndCache {P U : Type} [DecidableEq U] (env : ExtEnv P U)
    (I : PatternIface P U) (ctx : Ctx P U) (u : U) (tab : Option (TabInfo P))
    (opts : StateOptions) (now : Int) : PermState × Ctx P U :=
  if anySpecificHostMatch I ctx.m_deniedPermissionMatchPatterns u then
    cacheResultAndReturn ctx u .deniedExplicitly
  else if anySpecificHostMatch I ctx.m_grantedPermissionMatchPatterns u then
    cacheResultAndReturn ctx u .grantedExplicitly
  else if anyAllHostsMatch I ctx.m_deniedPermissionMatchPatterns u then
    cacheResultAndReturn ctx u .deniedImplicitly
  else if anyAllHostsMatch I ctx.m_grantedPermissionMatchPatterns u then
    cacheResultAndReturn ctx u .grantedImplicitly
  else if opts.skipRequested then cacheResultAndReturn ctx u .unknown
  else
    match requestedPatternsState I env.allRequestedMatchPatterns u with
    | some s => cacheResultAndReturn ctx u s
    | none =>
      let r1 := hasPermissionForPermission env ctx "webNavigation" tab opts now
      if r1.1 then cacheResultAndReturn r1.2 u .requestedImplicitly
      else
        let r2 := hasPermissionForPermission env r1.2
          "declarativeNetRequestFeedback" tab opts now
        if r2.1 then cacheResultAndReturn r2.2 u .requestedImplicitly
        else if opts.requestedWithTabs then
          let r3 := hasPermissionForPermission env r2.2 "tabs" tab opts now
          if r3.1 then (.requestedImplicitly, r3.2)
          else if opts.includeOptional
              && patternsMatchURL I env.optionalPermissionMatchPatterns u then
            cacheResultAndReturn r3.2 u .requestedImplicitly
          else cacheResultAndReturn r3.2 u .unknown
        else if opts.includeOptional
            && patternsMatchURL I env.optionalPermissionMatchPatterns u then
          cacheResultAndReturn r2.2 u .requestedImplicitly
        else cacheResultAndReturn r2.2 u .unknown

/-- `WebExtensionContext::permissionState(const URL&, WebExtensionTab*,
OptionSet<PermissionStateOptions>)`: early URL checks, temporary tab pattern,
expiry sweeps of both pattern maps, then the per-URL cache (answering from it
when it holds the URL, except that a cached Unknown is recomputed unless
requested permissions are skipped), falling back to `resolveAndCache`. -/
def permissionStateForURL {P U : Type} [DecidableEq U] (env : ExtEnv P U)
    (I : PatternIface P U) (ctx : Ctx P U) (u : U) (tab : Option (TabInfo P))
    (opts : StateOptions) (now : Int) : PermState × Ctx P U :=
  if env.urlIsEmpty u then (.unknown, ctx)
  else if env.urlForThisExtension u then (.grantedImplicitly, ctx)
  else if !env.urlHasValidScheme u then (.unknown, ctx)
  else if (match tab with
      | some t =>
        match t.temporaryPattern with
        | some p => I.matchesURL p u
        | none => false
      | none => false) then
    (.grantedExplicitly, ctx)
  else
    let c1 := grantedPermissionMatchPatterns ctx now
    let c2 := deniedPermissionMatchPatterns c1 now
    if c2.m_cachedPermissionURLs.any (fun x => decide (x = u)) then
      let cachedState := mapGetD c2.m_cachedPermissionStates u .unknown
      if !decide (cachedState = .unknown) || opts.skipRequested then
        let c3 : Ctx P U := { c2 with
          m_cachedPermissionURLs :=
            (c2.m_cachedPermissionURLs.filter (fun x => !decide (x = u))) ++ [u] }
        if isRequestedState cachedState && opts.skipRequested then (.unknown, c3)
        else (cachedState, c3)
      else resolveAndCache env I c2 u tab opts now
    else resolveAndCache env I c2 u tab opts now

/-- `WebExtensionContext::hasPermission(const URL&, ...)`. -/
def hasPermissionForURL {P U : Type} [DecidableEq U] (env : ExtEnv P U)
    (I : PatternIface P U) (ctx : Ctx P U) (u : U) (tab : Option (TabInfo P))
    (opts : StateOptions) (now : Int) : Bool × Ctx P U :=
  let r := permissionStateForURL env I ctx u tab
    { opts with skipRequested := true } now
  (match r.1 with
   | .grantedImplicitly | .grantedExplicitly => true
   | _ => false, r.2)

/-- Modelled from the spec: `WebExtensionContext::currentPermissionMatchPatterns`
is not in the excerpt.  Per the spec, `hasAccessToAllURLs` and
`hasAccessToAllHosts` consult the currently granted, non-expired permission
match patterns, so this returns the keys of the swept granted pattern map
(temporary patterns of open tabs are outside this model). -/
def currentPermissionMatchPatterns {P U : Type} (ctx : Ctx P U) (now : Int) :
    List P × Ctx P U :=
  let c := grantedPermissionMatchPatterns ctx now
  (c.m_grantedPermissionMatchPatterns.map (fun pe => pe.1), c)

/-- `WebExtensionContext::hasAccessToAllURLs()`. -/
def hasAccessToAllURLs {P U : Type} (I : PatternIface P U) (ctx : Ctx P U)
    (now : Int) : Bool × Ctx P U :=
  let r := currentPermissionMatchPatterns ctx now
  (r.1.any I.matchesAllURLs, r.2)

/-- `WebExtensionContext::hasAccessToAllHosts()`. -/
def hasAccessToAllHosts {P U : Type} (I : PatternIface P U) (ctx : Ctx P U)
    (now : Int) : Bool × Ctx P U :=
  let r := currentPermissionMatchPatterns ctx now
  (r.1.any I.matchesAllHosts, r.2)

/-- `WebExtensionContext::hasInjectedContentForURL(const URL&)`: some injected
content entry has no exclude pattern matching the URL and some include pattern
matching it. -/
def hasInjectedContentForURL {P U : Type} (I : PatternIface P U)
    (contents : List (InjectedContentEntry P)) (u : U) : Bool :=
  contents.any (fun ic =>
    !(ic.excludeMatchPatterns.any (fun p => I.matchesURL p u))
      && ic.includeMatchPatterns.any (fun p => I.matchesURL p u))

/-- `webkit_web_extension_context_get_granted_permissions`: sweep, then return
NULL (`none`) when the map is empty, else the entry list. -/
def getGrantedPermissionsAPI {P U : Type} (ctx : Ctx P U) (now : Int) :
    Option (List (String × ETime)) × Ctx P U :=
  let c := grantedPermissions ctx now
  (if c.m_grantedPermissions.isEmpty then none else some c.m_grantedPermissions, c)

/-- `webkit_web_extension_context_get_denied_permissions`. -/
def getDeniedPermissionsAPI {P U : Type} (ctx : Ctx P U) (now : Int) :
    Option (List (String × ETime)) × Ctx P U :=
  let c := deniedPermissions ctx now
  (if c.m_deniedPermissions.isEmpty then none else some c.m_deniedPermissions, c)

/-- `webkit_web_extension_context_get_granted_permission_match_patterns`. -/
def getGrantedPermissionMatchPatternsAPI {P U : Type} (ctx : Ctx P U)
    (now : Int) : Option (List (P × ETime)) × Ctx P U :=
  let c := grantedPermissionMatchPatterns ctx now
  (if c.m_grantedPermissionMatchPatterns.isEmpty then none
   else some c.m_grantedPermissionMatchPatterns, c)

/-- `webkit_web_extension_context_get_denied_permission_match_patterns`. -/
def getDeniedPermissionMatchPatternsAPI {P U : Type} (ctx : Ctx P U)
    (now : Int) : Option (List (P × ETime)) × Ctx P U :=
  let c := deniedPermissionMatchPatterns ctx now
  (if c.m_deniedPermissionMatchPatterns.isEmpty then none
   else some c.m_deniedPermissionMatchPatterns, c)

/-- Entries of a map that have not expired at `now` (expiration strictly after
`now`). -/
def unexpired {K : Type} (m : List (K × ETime)) (now : Int) :
    List (K × ETime) :=
  m.filter (fun kv => kv.2.gtNow now)

/-- The minimum expiration among the entries of a map (infinity when empty). -/
def minExpOf {K : Type} (m : List (K × ETime)) : ETime :=
  m.foldr (fun kv acc => ETime.minE kv.2 acc) .inf

/-- The lower-bound invariant on a tracked next-expiration date: it is either
the NaN sentinel (forcing the next access to sweep) or at most every stored
expiration of its map. -/
def nextLB {K : Type} (next : WTime) (m : List (K × ETime)) : Prop :=
  next = .nan ∨ ∀ kv ∈ m, next.leE kv.2 = true

/-- The guard under which `removeExpired` returns without sweeping. -/
def sweepSkipped (next : WTime) (now : Int) : Bool :=
  !next.isNan && next.gtNow now

/-- The lower-bound invariant for all four tracked dates of a context. -/
def ctxNextLB {P U : Type} (ctx : Ctx P U) : Prop :=
  nextLB ctx.m_nextGrantedPermissionsExpirationDate ctx.m_grantedPermissions ∧
  nextLB ctx.m_nextDeniedPermissionsExpirationDate ctx.m_deniedPermissions ∧
  nextLB ctx.m_nextGrantedPermissionMatchPatternsExpirationDate
    ctx.m_grantedPermissionMatchPatterns ∧
  nextLB ctx.m_nextDeniedPermissionMatchPatternsExpirationDate
    ctx.m_deniedPermissionMatchPatterns

/-- Disjointness of the granted and denied permission maps and of the granted
and denied match-pattern maps (no key occurs in both). -/
def ctxDisjoint {P U : Type} [DecidableEq P] (ctx : Ctx P U) : Prop :=
  (∀ k : String, keyMem ctx.m_grantedPermissions k = true →
    keyMem ctx.m_deniedPermissions k = false) ∧
  (∀ p : P, keyMem ctx.m_grantedPermissionMatchPatterns p = true →
    keyMem ctx.m_deniedPermissionMatchPatterns p = false)

/-- The permission-state mutations named by the invariant claims: grants,
denials, `setPermissionState`, the removals, and the expiry-sweeping map
accessors. -/
inductive PermOp (P : Type) where
  | grantPerms (ps : List String) (exp : ETime)
  | denyPerms (ps : List String) (exp : ETime)
  | grantPats (ps : List P) (exp : ETime) (equalityOnly : Bool)
  | denyPats (ps : List P) (exp : ETime) (equalityOnly : Bool)
  | setPermState (s : PermState) (p : String) (exp : ETime)
  | setPatState (s : PermState) (pat : P) (exp : ETime)
  | removeGrantedPerms (ps : List String)
  | removeDeniedPerms (ps : List String)
  | removeGrantedPats (ps : List P) (equalityOnly : Bool)
  | removeDeniedPats (ps : List P) (equalityOnly : Bool)
  | accessGrantedPerms (now : Int)
  | accessDeniedPerms (now : Int)
  | accessGrantedPats (now : Int)
  | accessDeniedPats (now : Int)

/-- Interpretation of one mutation on a context. -/
def applyOp {P U : Type} [DecidableEq P] (I : PatternIface P U) :
    PermOp P → Ctx P U → Ctx P U
  | .grantPerms ps exp, c => grantPermissions c ps exp
  | .denyPerms ps exp, c => denyPermissions c ps exp
  | .grantPats ps exp eq, c => grantPermissionMatchPatterns I c ps exp eq
  | .denyPats ps exp eq, c => denyPermissionMatchPatterns I c ps exp eq
  | .setPermState s p exp, c => setPermissionStateForPermission c s p exp
  | .setPatState s pat exp, c => setPermissionStateForPattern I c s pat exp
  | .removeGrantedPerms ps, c => removeGrantedPermissions c ps
  | .removeDeniedPerms ps, c => removeDeniedPermissions c ps
  | .removeGrantedPats ps eq, c => removeGrantedPermissionMatchPatterns I c ps eq
  | .removeDeniedPats ps eq, c => removeDeniedPermissionMatchPatterns I c ps eq
  | .accessGrantedPerms now, c => grantedPermissions c now
  | .accessDeniedPerms now, c => deniedPermissions c now
  | .accessGrantedPats now, c => grantedPermissionMatchPatterns c now
  | .accessDeniedPats now, c => deniedPermissionMatchPatterns c now

/-- A context reached from a freshly created one by a sequence of mutations. -/
def runOps {P U : Type} [DecidableEq P] (I : PatternIface P U)
    (ops : List (PermOp P)) : Ctx P U :=
  ops.foldl (fun c op => applyOp I op c) initCtx

/-- Spec-side fresh permission check for a permission string (used by the
fresh URL resolution below): the permission is supported, not in the current
unexpired denied permissions, and in the current unexpired granted
permissions. -/
def specHasPermission {P U : Type} (env : ExtEnv P U) (ctx : Ctx P U)
    (permission : String) (now : Int) : Bool :=
  env.supportedPermissions.any (fun q => decide (q = permission))
    && !(keyMem (unexpired ctx.m_deniedPermissions now) permission)
    && keyMem (unexpired ctx.m_grantedPermissions now) permission

/-- Spec-side definition for the cache-transparency claim: the permission state
of a URL computed afresh from the current (unexpired) granted, denied and
requested permission maps and patterns, with no cache involved.  Follows the
claim's wording for the query forms the GLib API issues (no tab, at most the
skip-requested option). -/
def specFreshPermissionState {P U : Type} (env : ExtEnv P U)
    (I : PatternIface P U) (ctx : Ctx P U) (u : U) (skip : Bool) (now : Int) :
    PermState :=
  if env.urlIsEmpty u then .unknown
  else if env.urlForThisExtension u then .grantedImplicitly
  else if !env.urlHasValidScheme u then .unknown
  else
    let dps := unexpired ctx.m_deniedPermissionMatchPatterns now
    let gps := unexpired ctx.m_grantedPermissionMatchPatterns now
    if anySpecificHostMatch I dps u then .deniedExplicitly
    else if anySpecificHostMatch I gps u then .grantedExplicitly
    else if anyAllHostsMatch I dps u then .deniedImplicitly
    else if anyAllHostsMatch I gps u then .grantedImplicitly
    else if skip then .unknown
    else
      match requestedPatternsState I env.allRequestedMatchPatterns u with
      | some s => s
      | none =>
        if specHasPermission env ctx "webNavigation" now then .requestedImplicitly
        else if specHasPermission env ctx "declarativeNetRequestFeedback" now then
          .requestedImplicitly
        else .unknown

/-- A tiny concrete pattern type used to instantiate the abstract pattern
interface on explicit inputs: a pattern either names one exact URL or is the
all-hosts/all-URLs wildcard. -/
inductive CPat where
  | host (h : String)
  | wild
deriving DecidableEq, Repr

/-- Concrete pattern interface over `CPat` with URLs as strings. -/
def cIface : PatternIface CPat String where
  matchesURL := fun p u =>
    match p with
    | .host h => decide (u = h)
    | .wild => true
  matchesAllHosts := fun p =>
    match p with
    | .wild => true
    | .host _ => false
  matchesAllURLs := fun p =>
    match p with
    | .wild => true
    | .host _ => false
  matchesPatternIgnorePaths := fun a b => decide (a = b)

/-- Concrete environment: no URL is empty or extension-local, every scheme is
valid, the manifest requests the `tabs` permission and no match patterns. -/
def cEnv : ExtEnv CPat String where
  urlIsEmpty := fun u => decide (u = "")
  urlForThisExtension := fun _ => false
  urlHasValidScheme := fun _ => true
  supportedPermissions :=
    ["tabs", "webNavigation", "declarativeNetRequestFeedback", "cookies"]
  hasRequestedPermission := fun p => decide (p = "tabs")
  optionalPermissions := []
  allRequestedMatchPatterns := []
  optionalPermissionMatchPatterns := []

/-- Variant of `cEnv` in which one URL belongs to the extension itself (its
`webkit-extension://` base URL). -/
def cEnvExt : ExtEnv CPat String :=
  { cEnv with urlForThisExtension :=
      fun u => decide (u = "webkit-extension://abc/") }

/-- The empty option set (the default argument of the C++ overloads). -/
def noOpts : StateOptions := ⟨false, false, false⟩

/-- Trace for the expiry-sweep claim: grant "a" until time 10, access the map
at time 0 (sweep, tracked date becomes 10), re-grant "a" with the earlier
expiration 5 (tracked date is lowered to 5, but the stored entry keeps 10),
then access the map at time 3. -/
def c2Trace : Ctx CPat String :=
  grantedPermissions
    (grantPermissions
      (grantedPermissions (grantPermissions initCtx ["a"] (.fin 10)) 0)
      ["a"] (.fin 5))
    3

/-- Context for the cache-staleness trace: `webNavigation` granted until
time 10. -/
def c4Ctx : Ctx CPat String :=
  grantPermissions initCtx ["webNavigation"] (.fin 10)

/-- First URL query at time 0 (caches `RequestedImplicitly` via the
`webNavigation` fallback). -/
def c4FirstQuery : PermState × Ctx CPat String :=
  permissionStateForURL cEnv cIface c4Ctx "https://example.com/" none noOpts 0

/-- Second query of the same URL at time 20, after the `webNavigation` grant
has expired. -/
def c4SecondQuery : PermState × Ctx CPat String :=
  permissionStateForURL cEnv cIface c4FirstQuery.2 "https://example.com/" none
    noOpts 20

/-- Context with `tabs` granted until time 10. -/
def c7Ctx : Ctx CPat String := grantPermissions initCtx ["tabs"] (.fin 10)

/-- Setting `tabs` to GrantedExplicitly again, now with expiration 5. -/
def c7After : Ctx CPat String :=
  setPermissionStateForPermission c7Ctx .grantedExplicitly "tabs" (.fin 5)

/-- Context with `tabs` denied (no expiration). -/
def c9Ctx : Ctx CPat String := denyPermissions initCtx ["tabs"] .inf

/-- Granting `tabs` on that context removes it from the denied permissions
map, which emits a signal. -/
def c9After : Ctx CPat String := grantPermissions c9Ctx ["tabs"] .inf

/-- Context for the URL-precedence witness: `https://example.com/` denied by a
host-specific pattern while the all-hosts wildcard is granted. -/
def c1Ctx : Ctx CPat String :=
  { (initCtx : Ctx CPat String) with
    m_deniedPermissionMatchPatterns := [(CPat.host "https://example.com/", .inf)]
    m_grantedPermissionMatchPatterns := [(CPat.wild, .inf)] }

/-- Context for the all-URL-access witness: the wildcard pattern granted until
time 10 and a host-specific pattern granted forever. -/
def c6Ctx : Ctx CPat String :=
  { (initCtx : Ctx CPat String) with
    m_grantedPermissionMatchPatterns :=
      [(CPat.wild, .fin 10), (CPat.host "https://example.com/", .inf)] }

/-- Context for the GLib getter witness: one granted permission expiring at 10,
one denied permission expiring at 5. -/
def c10Ctx : Ctx CPat String :=
  { (initCtx : Ctx CPat String) with
    m_grantedPermissions := [("tabs", .fin 10)]
    m_deniedPermissions := [("cookies", .fin 5)] }

lemma sweepMap_kept {K : Type} (m : List (K × ETime)) (now : Int) :
    (sweepMap m now).1 = m.filter (fun kv => kv.2.gtNow now) := by
  induction m with
  | nil => rfl
  | cons kv rest ih =>
    cases hle : kv.2.leNow now <;>
      simp [sweepMap, hle, List.filter, ETime.gtNow, ih]

lemma sweepMap_removed_nil {K : Type} (m : List (K × ETime)) (now : Int)
    (h : ∀ kv ∈ m, kv.2.gtNow now = true) : (sweepMap m now).2.1 = [] := by
  induction m with
  | nil => rfl
  | cons kv rest ih =>
    have hkv := h kv (by simp)
    have hle : kv.2.leNow now = false := by
      simpa [ETime.gtNow] using hkv
    simp only [sweepMap, hle]
    simp only [Bool.false_eq_true, if_false]
    exact ih (fun x hx => h x (by simp [hx]))

lemma sweepMap_min {K : Type} (m : List (K × ETime)) (now : Int) :
    (sweepMap m now).2.2 = minExpOf (sweepMap m now).1 := by
  induction m with
  | nil => rfl
  | cons kv rest ih =>
    cases hle : kv.2.leNow now <;>
      simp [sweepMap, hle, minExpOf, ih]

lemma filter_eq_self_of_all {α : Type _} (l : List α) (p : α → Bool)
    (h : ∀ a ∈ l, p a = true) : l.filter p = l :=
  List.filter_eq_self.mpr h

lemma gtNow_of_leE {e : ETime} {next : WTime} {now : Int}
    (h1 : next.leE e = true) (h2 : next.gtNow now = true) :
    e.gtNow now = true := by
  cases next <;> cases e <;>
    (simp_all [WTime.leE, WTime.gtNow, ETime.gtNow, ETime.leNow]; try omega)

lemma removeExpired_of_skipped {K : Type} (m : List (K × ETime)) (next : WTime)
    (now : Int) (h : sweepSkipped next now = true) :
    removeExpired m next now = (m, next, []) := by
  simp only [removeExpired]
  simp only [sweepSkipped] at h
  simp [h]

lemma removeExpired_of_swept {K : Type} (m : List (K × ETime)) (next : WTime)
    (now : Int) (h : sweepSkipped next now = false) :
    removeExpired m next now =
      ((sweepMap m now).1, (sweepMap m now).2.2.toW, (sweepMap m now).2.1) := by
  simp only [removeExpired]
  simp only [sweepSkipped] at h
  simp [h]

/-- Under the lower-bound invariant, every access leaves exactly the unexpired
entries in the map (whether or not a sweep actually runs). -/
lemma removeExpired_kept_of_LB {K : Type} (m : List (K × ETime)) (next : WTime)
    (now : Int) (h : nextLB next m) :
    (removeExpired m next now).1 = unexpired m now := by
  cases hs : sweepSkipped next now with
  | true =>
    rw [removeExpired_of_skipped m next now hs]
    have hnn : next.isNan = false := by
      by_contra hc
      simp only [Bool.not_eq_false] at hc
      cases next <;> simp_all [WTime.isNan, sweepSkipped]
    have hgt : next.gtNow now = true := by
      cases hgt' : next.gtNow now
      · simp [sweepSkipped, hnn, hgt'] at hs
      · rfl
    have hall : ∀ kv ∈ m, kv.2.gtNow now = true := by
      intro kv hkv
      rcases h with h | h
      · subst h; simp [WTime.isNan] at hnn
      · exact gtNow_of_leE (h kv hkv) hgt
    exact (filter_eq_self_of_all m _ hall).symm
  | false =>
    rw [removeExpired_of_swept m next now hs]
    exact sweepMap_kept m now

/-- Entries that have not expired survive a sweep unchanged, nothing is
removed, and the tracked date becomes the exact minimum when a sweep runs. -/
lemma removeExpired_of_unexpired {K : Type} (m : List (K × ETime))
    (next : WTime) (now : Int) (h : ∀ kv ∈ m, kv.2.gtNow now = true) :
    (removeExpired m next now).1 = m ∧ (removeExpired m next now).2.2 = [] := by
  cases hs : sweepSkipped next now with
  | true => rw [removeExpired_of_skipped m next now hs]; exact ⟨rfl, rfl⟩
  | false =>
    rw [removeExpired_of_swept m next now hs]
    refine ⟨?_, sweepMap_removed_nil m now h⟩
    rw [sweepMap_kept]
    exact filter_eq_self_of_all m _ h

lemma permissionsDidChangePerms_eq {P U : Type} (ctx : Ctx P U) (name : String)
    (ps : List String) :
    permissionsDidChangePerms ctx name ps =
      { ctx with emittedSignals := ctx.emittedSignals ++
          (if ps.isEmpty then [] else [emittedSignalName name]) } := by
  cases hps : ps.isEmpty <;> simp [permissionsDidChangePerms, hps]

lemma permissionsDidChangePats_eq {P U : Type} (ctx : Ctx P U) (name : String)
    (ps : List P) :
    permissionsDidChangePats ctx name ps =
      if ps.isEmpty then ctx
      else { ctx with
        m_cachedPermissionURLs := []
        m_cachedPermissionStates := []
        emittedSignals := ctx.emittedSignals ++ [emittedSignalName name] } := by
  cases hps : ps.isEmpty <;>
    simp [permissionsDidChangePats, clearCachedPermissionStates, hps]

lemma grantedPermissions_shape {P U : Type} (ctx : Ctx P U) (now : Int) :
    ∃ mp nx sg, grantedPermissions ctx now =
      { ctx with
        m_grantedPermissions := mp
        m_nextGrantedPermissionsExpirationDate := nx
        emittedSignals := sg } :=
  by
  simp only [grantedPermissions, permissionsDidChangePerms_eq]
  exact ⟨_, _, _, rfl⟩

lemma deniedPermissions_shape {P U : Type} (ctx : Ctx P U) (now : Int) :
    ∃ mp nx sg, deniedPermissions ctx now =
      { ctx with
        m_deniedPermissions := mp
        m_nextDeniedPermissionsExpirationDate := nx
        emittedSignals := sg } :=
  by
  simp only [deniedPermissions, permissionsDidChangePerms_eq]
  exact ⟨_, _, _, rfl⟩

lemma grantedPermissions_eq_of_unexpired {P U : Type} (ctx : Ctx P U)
    (now : Int)
    (h : ∀ kv ∈ ctx.m_grantedPermissions, kv.2.gtNow now = true) :
    ∃ nx, grantedPermissions ctx now =
      { ctx with m_nextGrantedPermissionsExpirationDate := nx } := by
  obtain ⟨h1, h2⟩ := removeExpired_of_unexpired ctx.m_grantedPermissions
    ctx.m_nextGrantedPermissionsExpirationDate now h
  refine ⟨(removeExpired ctx.m_grantedPermissions
    ctx.m_nextGrantedPermissionsExpirationDate now).2.1, ?_⟩
  simp [grantedPermissions, permissionsDidChangePerms_eq, h1, h2]

lemma deniedPermissions_eq_of_unexpired {P U : Type} (ctx : Ctx P U) (now : Int)
    (h : ∀ kv ∈ ctx.m_deniedPermissions, kv.2.gtNow now = true) :
    ∃ nx, deniedPermissions ctx now =
      { ctx with m_nextDeniedPermissionsExpirationDate := nx } := by
  obtain ⟨h1, h2⟩ := removeExpired_of_unexpired ctx.m_deniedPermissions
    ctx.m_nextDeniedPermissionsExpirationDate now h
  refine ⟨(removeExpired ctx.m_deniedPermissions
    ctx.m_nextDeniedPermissionsExpirationDate now).2.1, ?_⟩
  simp [deniedPermissions, permissionsDidChangePerms_eq, h1, h2]

lemma grantedPermissionMatchPatterns_eq_of_unexpired {P U : Type}
    (ctx : Ctx P U) (now : Int)
    (h : ∀ kv ∈ ctx.m_grantedPermissionMatchPatterns, kv.2.gtNow now = true) :
    ∃ nx, grantedPermissionMatchPatterns ctx now =
      { ctx with m_nextGrantedPermissionMatchPatternsExpirationDate := nx } := by
  obtain ⟨h1, h2⟩ := removeExpired_of_unexpired
    ctx.m_grantedPermissionMatchPatterns
    ctx.m_nextGrantedPermissionMatchPatternsExpirationDate now h
  refine ⟨(removeExpired ctx.m_grantedPermissionMatchPatterns
    ctx.m_nextGrantedPermissionMatchPatternsExpirationDate now).2.1, ?_⟩
  simp [grantedPermissionMatchPatterns, permissionsDidChangePats_eq, h1, h2]

lemma deniedPermissionMatchPatterns_eq_of_unexpired {P U : Type}
    (ctx : Ctx P U) (now : Int)
    (h : ∀ kv ∈ ctx.m_deniedPermissionMatchPatterns, kv.2.gtNow now = true) :
    ∃ nx, deniedPermissionMatchPatterns ctx now =
      { ctx with m_nextDeniedPermissionMatchPatternsExpirationDate := nx } := by
  obtain ⟨h1, h2⟩ := removeExpired_of_unexpired
    ctx.m_deniedPermissionMatchPatterns
    ctx.m_nextDeniedPermissionMatchPatternsExpirationDate now h
  refine ⟨(removeExpired ctx.m_deniedPermissionMatchPatterns
    ctx.m_nextDeniedPermissionMatchPatternsExpirationDate now).2.1, ?_⟩
  simp [deniedPermissionMatchPatterns, permissionsDidChangePats_eq, h1, h2]

lemma grantedPermissionMatchPatterns_cache {P U : Type} (ctx : Ctx P U)
    (now : Int) :
    (grantedPermissionMatchPatterns ctx now).m_cachedPermissionURLs =
        ctx.m_cachedPermissionURLs ∨
      (grantedPermissionMatchPatterns ctx now).m_cachedPermissionURLs = [] := by
  simp only [grantedPermissionMatchPatterns, permissionsDidChangePats_eq]
  split
  · left; rfl
  · right; rfl

lemma deniedPermissionMatchPatterns_cache {P U : Type} (ctx : Ctx P U)
    (now : Int) :
    (deniedPermissionMatchPatterns ctx now).m_cachedPermissionURLs =
        ctx.m_cachedPermissionURLs ∨
      (deniedPermissionMatchPatterns ctx now).m_cachedPermissionURLs = [] := by
  simp only [deniedPermissionMatchPatterns, permissionsDidChangePats_eq]
  split
  · left; rfl
  · right; rfl

lemma keyMem_iff {K V : Type} [DecidableEq K] (m : List (K × V)) (k : K) :
    keyMem m k = true ↔ ∃ kv ∈ m, kv.1 = k := by
  simp [keyMem, List.any_eq_true]

lemma keyMem_append {K V : Type} [DecidableEq K] (m1 m2 : List (K × V))
    (k : K) : keyMem (m1 ++ m2) k = (keyMem m1 k || keyMem m2 k) := by
  simp [keyMem, List.any_append]

lemma removeScanPerms_kept {K : Type} [DecidableEq K] (m : List (K × ETime))
    (rm : List K) :
    (removeScanPerms m rm).1 =
      m.filter (fun kv => !rm.any (fun x => decide (x = kv.1))) := by
  induction m with
  | nil => rfl
  | cons kv rest ih =>
    cases h : rm.any (fun x => decide (x = kv.1)) <;>
      simp [removeScanPerms, h, List.filter, ih]

lemma removeScanPats_kept {P U : Type} [DecidableEq P] (I : PatternIface P U)
    (m : List (P × ETime)) (rm : List P) (eqOnly : Bool) :
    (removeScanPats I m rm eqOnly).1 =
      m.filter (fun kv => !rm.any (fun x => decide (x = kv.1))
        && !(!eqOnly && rm.any (fun x => I.matchesPatternIgnorePaths x kv.1))) := by
  induction m with
  | nil => rfl
  | cons kv rest ih =>
    cases h1 : rm.any (fun x => decide (x = kv.1)) with
    | true => simp [removeScanPats, h1, List.filter, ih]
    | false =>
      cases h2 : (!eqOnly && rm.any (fun x => I.matchesPatternIgnorePaths x kv.1)) <;>
        simp [removeScanPats, h1, h2, List.filter, ih]

lemma removePermissions_mem {K : Type} [DecidableEq K] (m : List (K × ETime))
    (rm : List K) (next : WTime) (k : K)
    (h : keyMem (removePermissions m rm next).1 k = true) :
    keyMem m k = true := by
  by_cases he : rm.isEmpty
  · simpa [removePermissions, he] using h
  · simp only [removePermissions, he, if_neg, Bool.false_eq_true,
      removeScanPerms_kept] at h
    rw [keyMem_iff] at h ⊢
    obtain ⟨kv, hkv, hk⟩ := h
    exact ⟨kv, List.mem_of_mem_filter hkv, hk⟩

lemma removePermissions_removes {K : Type} [DecidableEq K]
    (m : List (K × ETime)) (rm : List K) (next : WTime) (k : K) (hk : k ∈ rm) :
    keyMem (removePermissions m rm next).1 k = false := by
  have he : rm.isEmpty = false := by
    cases rm
    · simp at hk
    · rfl
  simp only [removePermissions, he, Bool.false_eq_true, if_false,
    removeScanPerms_kept]
  by_contra hc
  simp only [Bool.not_eq_false] at hc
  rw [keyMem_iff] at hc
  obtain ⟨kv, hkv, hkk⟩ := hc
  have hp := List.of_mem_filter hkv
  rw [Bool.not_eq_true', List.any_eq_false] at hp
  have h5 := hp k hk
  rw [hkk] at h5
  simp at h5

lemma removePermissionMatchPatterns_mem {P U : Type} [DecidableEq P]
    (I : PatternIface P U) (m : List (P × ETime)) (rm : List P)
    (eqOnly : Bool) (next : WTime) (k : P)
    (h : keyMem (removePermissionMatchPatterns I m rm eqOnly next).1 k = true) :
    keyMem m k = true := by
  by_cases he : rm.isEmpty
  · simpa [removePermissionMatchPatterns, he] using h
  · simp only [removePermissionMatchPatterns, he, Bool.false_eq_true, if_false,
      removeScanPats_kept] at h
    rw [keyMem_iff] at h ⊢
    obtain ⟨kv, hkv, hk⟩ := h
    exact ⟨kv, List.mem_of_mem_filter hkv, hk⟩

lemma removePermissionMatchPatterns_removes {P U : Type} [DecidableEq P]
    (I : PatternIface P U) (m : List (P × ETime)) (rm : List P)
    (eqOnly : Bool) (next : WTime) (k : P) (hk : k ∈ rm) :
    keyMem (removePermissionMatchPatterns I m rm eqOnly next).1 k = false := by
  have he : rm.isEmpty = false := by
    cases rm
    · simp at hk
    · rfl
  simp only [removePermissionMatchPatterns, he, Bool.false_eq_true, if_false,
    removeScanPats_kept]
  by_contra hc
  simp only [Bool.not_eq_false] at hc
  rw [keyMem_iff] at hc
  obtain ⟨kv, hkv, hkk⟩ := hc
  have hp := List.of_mem_filter hkv
  simp only [Bool.and_eq_true] at hp
  have hp1 := hp.1
  rw [Bool.not_eq_true', List.any_eq_false] at hp1
  have h5 := hp1 k hk
  rw [hkk] at h5
  simp at h5

lemma addAllScan_mem {K : Type} [DecidableEq K] (ks : List K)
    (m : List (K × ETime)) (exp : ETime) (k : K) :
    keyMem (addAllScan m ks exp).1 k = true ↔
      keyMem m k = true ∨ k ∈ (addAllScan m ks exp).2 := by
  induction ks generalizing m with
  | nil => simp [addAllScan]
  | cons k0 rest ih =>
    by_cases h0 : keyMem m k0 = true
    · simp only [addAllScan, mapAdd, h0, if_true]
      rw [ih]
      simp
    · have h0' : keyMem m k0 = false := by
        cases hb : keyMem m k0
        · rfl
        · exact absurd hb h0
      simp only [addAllScan, mapAdd, h0', Bool.false_eq_true, if_false]
      rw [ih, keyMem_append]
      constructor
      · rintro (h | h)
        · rcases Bool.or_eq_true _ _ |>.mp h with h | h
          · exact Or.inl h
          · simp only [keyMem, List.any_cons, List.any_nil, Bool.or_false,
              decide_eq_true_eq] at h
            exact Or.inr (by simp [h])
        · exact Or.inr (by simp [h])
      · rintro (h | h)
        · exact Or.inl (by simp [h])
        · rcases List.mem_cons.mp h with h | h
          · subst h
            exact Or.inl (by simp [keyMem])
          · exact Or.inr h

lemma addAllScan_single {K : Type} [DecidableEq K] (m : List (K × ETime))
    (p : K) (exp : ETime) :
    addAllScan m [p] exp =
      if keyMem m p then (m, []) else (m ++ [(p, exp)], [p]) := by
  by_cases h : keyMem m p = true
  · simp [addAllScan, mapAdd, h]
  · have h' : keyMem m p = false := by
      cases hb : keyMem m p
      · rfl
      · exact absurd hb h
    simp [addAllScan, mapAdd, h']

lemma removePermissions_single_kept {K : Type} [DecidableEq K]
    (m : List (K × ETime)) (p : K) (next : WTime) :
    (removePermissions m [p] next).1 =
      m.filter (fun kv => !decide (kv.1 = p)) := by
  have he : ([p] : List K).isEmpty = false := rfl
  simp only [removePermissions, he, Bool.false_eq_true, if_false,
    removeScanPerms_kept]
  apply List.filter_congr
  intro kv _
  have h6 : decide (p = kv.1) = decide (kv.1 = p) :=
    decide_eq_decide.mpr ⟨Eq.symm, Eq.symm⟩
  simp [List.any_cons, List.any_nil, h6]

lemma removeExpired_mem {K : Type} [DecidableEq K] (m : List (K × ETime))
    (next : WTime) (now : Int) (k : K)
    (h : keyMem (removeExpired m next now).1 k = true) : keyMem m k = true := by
  cases hs : sweepSkipped next now with
  | true => rw [removeExpired_of_skipped m next now hs] at h; exact h
  | false =>
    rw [removeExpired_of_swept m next now hs, sweepMap_kept] at h
    rw [keyMem_iff] at h ⊢
    obtain ⟨kv, hkv, hk⟩ := h
    exact ⟨kv, List.mem_of_mem_filter hkv, hk⟩

lemma disjoint_grantPermissions {P U : Type} [DecidableEq P] (ctx : Ctx P U)
    (ps : List String) (exp : ETime) (h : ctxDisjoint ctx) :
    ctxDisjoint (grantPermissions ctx ps exp) := by
  cases hps : ps.isEmpty with
  | true => simpa [grantPermissions, hps] using h
  | false =>
    cases hadd : (addAllScan ctx.m_grantedPermissions ps exp).2.isEmpty with
    | true =>
      have hnil : (addAllScan ctx.m_grantedPermissions ps exp).2 = [] :=
        List.isEmpty_iff.mp hadd
      constructor
      · intro k hk
        simp only [grantPermissions, hps, Bool.false_eq_true, if_false, hadd,
          if_true] at hk ⊢
        rcases (addAllScan_mem ps ctx.m_grantedPermissions exp k).mp hk with
          hold | hmem
        · exact h.1 k hold
        · rw [hnil] at hmem; simp at hmem
      · intro p hp
        simp only [grantPermissions, hps, Bool.false_eq_true, if_false, hadd,
          if_true] at hp ⊢
        exact h.2 p hp
    | false =>
      constructor
      · intro k hk
        simp only [grantPermissions, hps, Bool.false_eq_true, if_false, hadd,
          removeDeniedPermissions, permissionsDidChangePerms_eq] at hk ⊢
        rcases (addAllScan_mem ps ctx.m_grantedPermissions exp k).mp hk with
          hold | hmem
        · cases hb : keyMem (removePermissions ctx.m_deniedPermissions
            (addAllScan ctx.m_grantedPermissions ps exp).2
            ctx.m_nextDeniedPermissionsExpirationDate).1 k with
          | false => rfl
          | true =>
            have hd := removePermissions_mem _ _ _ _ hb
            rw [h.1 k hold] at hd
            simp at hd
        · exact removePermissions_removes _ _ _ _ hmem
      · intro p hp
        simp only [grantPermissions, hps, Bool.false_eq_true, if_false, hadd,
          removeDeniedPermissions, permissionsDidChangePerms_eq] at hp ⊢
        exact h.2 p hp

lemma disjoint_denyPermissions {P U : Type} [DecidableEq P] (ctx : Ctx P U)
    (ps : List String) (exp : ETime) (h : ctxDisjoint ctx) :
    ctxDisjoint (denyPermissions ctx ps exp) := by
  cases hps : ps.isEmpty with
  | true => simpa [denyPermissions, hps] using h
  | false =>
    cases hadd : (addAllScan ctx.m_deniedPermissions ps exp).2.isEmpty with
    | true =>
      have hnil : (addAllScan ctx.m_deniedPermissions ps exp).2 = [] :=
        List.isEmpty_iff.mp hadd
      constructor
      · intro k hk
        simp only [denyPermissions, hps, Bool.false_eq_true, if_false, hadd,
          if_true] at hk ⊢
        cases hb : keyMem (addAllScan ctx.m_deniedPermissions ps exp).1 k with
        | false => rfl
        | true =>
          rcases (addAllScan_mem ps ctx.m_deniedPermissions exp k).mp hb with
            hold | hmem
          · rw [h.1 k hk] at hold; simp at hold
          · rw [hnil] at hmem; simp at hmem
      · intro p hp
        simp only [denyPermissions, hps, Bool.false_eq_true, if_false, hadd,
          if_true] at hp ⊢
        exact h.2 p hp
    | false =>
      constructor
      · intro k hk
        simp only [denyPermissions, hps, Bool.false_eq_true, if_false, hadd,
          removeGrantedPermissions, permissionsDidChangePerms_eq] at hk ⊢
        have hold := removePermissions_mem _ _ _ _ hk
        cases hb : keyMem (addAllScan ctx.m_deniedPermissions ps exp).1 k with
        | false => rfl
        | true =>
          rcases (addAllScan_mem ps ctx.m_deniedPermissions exp k).mp hb with
            hden | hmem
          · rw [h.1 k hold] at hden; simp at hden
          · rw [removePermissions_removes _ _
              ctx.m_nextGrantedPermissionsExpirationDate _ hmem] at hk
            simp at hk
      · intro p hp
        simp only [denyPermissions, hps, Bool.false_eq_true, if_false, hadd,
          removeGrantedPermissions, permissionsDidChangePerms_eq] at hp ⊢
        exact h.2 p hp

lemma disjoint_grantPermissionMatchPatterns {P U : Type} [DecidableEq P]
    (I : PatternIface P U) (ctx : Ctx P U) (ps : List P) (exp : ETime)
    (eqOnly : Bool) (h : ctxDisjoint ctx) :
    ctxDisjoint (grantPermissionMatchPatterns I ctx ps exp eqOnly) := by
  cases hps : ps.isEmpty with
  | true => simpa [grantPermissionMatchPatterns, hps] using h
  | false =>
    cases hadd : (addAllScan ctx.m_grantedPermissionMatchPatterns ps exp).2.isEmpty with
    | true =>
      have hnil : (addAllScan ctx.m_grantedPermissionMatchPatterns ps exp).2 = [] :=
        List.isEmpty_iff.mp hadd
      constructor
      · intro k hk
        simp only [grantPermissionMatchPatterns, hps, Bool.false_eq_true,
          if_false, hadd, if_true] at hk ⊢
        exact h.1 k hk
      · intro p hp
        simp only [grantPermissionMatchPatterns, hps, Bool.false_eq_true,
          if_false, hadd, if_true] at hp ⊢
        rcases (addAllScan_mem ps ctx.m_grantedPermissionMatchPatterns exp p).mp
          hp with hold | hmem
        · exact h.2 p hold
        · rw [hnil] at hmem; simp at hmem
    | false =>
      constructor
      · intro k hk
        simp only [grantPermissionMatchPatterns, hps, Bool.false_eq_true,
          if_false, hadd, removeDeniedPermissionMatchPatterns,
          permissionsDidChangePats_eq] at hk ⊢
        split at hk <;> split <;> exact h.1 k hk
      · intro p hp
        simp only [grantPermissionMatchPatterns, hps, Bool.false_eq_true,
          if_false, hadd, removeDeniedPermissionMatchPatterns,
          permissionsDidChangePats_eq] at hp ⊢
        split at hp <;> split <;>
        · rcases (addAllScan_mem ps ctx.m_grantedPermissionMatchPatterns exp p).mp
            hp with hold | hmem
          · cases hb : keyMem (removePermissionMatchPatterns I
              ctx.m_deniedPermissionMatchPatterns
              (addAllScan ctx.m_grantedPermissionMatchPatterns ps exp).2 eqOnly
              ctx.m_nextDeniedPermissionMatchPatternsExpirationDate).1 p with
            | false => rfl
            | true =>
              have hd := removePermissionMatchPatterns_mem I _ _ _ _ _ hb
              rw [h.2 p hold] at hd
              simp at hd
          · exact removePermissionMatchPatterns_removes I _ _ _ _ _ hmem

lemma disjoint_denyPermissionMatchPatterns {P U : Type} [DecidableEq P]
    (I : PatternIface P U) (ctx : Ctx P U) (ps : List P) (exp : ETime)
    (eqOnly : Bool) (h : ctxDisjoint ctx) :
    ctxDisjoint (denyPermissionMatchPatterns I ctx ps exp eqOnly) := by
  cases hps : ps.isEmpty with
  | true => simpa [denyPermissionMatchPatterns, hps] using h
  | false =>
    cases hadd : (addAllScan ctx.m_deniedPermissionMatchPatterns ps exp).2.isEmpty with
    | true =>
      have hnil : (addAllScan ctx.m_deniedPermissionMatchPatterns ps exp).2 = [] :=
        List.isEmpty_iff.mp hadd
      constructor
      · intro k hk
        simp only [denyPermissionMatchPatterns, hps, Bool.false_eq_true,
          if_false, hadd, if_true] at hk ⊢
        exact h.1 k hk
      · intro p hp
        simp only [denyPermissionMatchPatterns, hps, Bool.false_eq_true,
          if_false, hadd, if_true] at hp ⊢
        cases hb : keyMem (addAllScan ctx.m_deniedPermissionMatchPatterns ps exp).1 p with
        | false => rfl
        | true =>
          rcases (addAllScan_mem ps ctx.m_deniedPermissionMatchPatterns exp p).mp
            hb with hold | hmem
          · rw [h.2 p hp] at hold; simp at hold
          · rw [hnil] at hmem; simp at hmem
    | false =>
      constructor
      · intro k hk
        simp only [denyPermissionMatchPatterns, hps, Bool.false_eq_true,
          if_false, hadd, removeGrantedPermissionMatchPatterns,
          permissionsDidChangePats_eq] at hk ⊢
        split at hk <;> split <;> exact h.1 k hk
      · intro p hp
        simp only [denyPermissionMatchPatterns, hps, Bool.false_eq_true,
          if_false, hadd, removeGrantedPermissionMatchPatterns,
          permissionsDidChangePats_eq] at hp ⊢
        split at hp <;> split <;>
        · have hold := removePermissionMatchPatterns_mem I _ _ _ _ _ hp
          cases hb : keyMem (addAllScan ctx.m_deniedPermissionMatchPatterns ps exp).1 p with
          | false => rfl
          | true =>
            rcases (addAllScan_mem ps ctx.m_deniedPermissionMatchPatterns exp p).mp
              hb with hden | hmem
            · rw [h.2 p hold] at hden; simp at hden
            · rw [removePermissionMatchPatterns_removes I _ _ eqOnly
                ctx.m_nextGrantedPermissionMatchPatternsExpirationDate _ hmem] at hp
              simp at hp

lemma disjoint_removeGrantedPermissions {P U : Type} [DecidableEq P]
    (ctx : Ctx P U) (ps : List String) (h : ctxDisjoint ctx) :
    ctxDisjoint (removeGrantedPermissions ctx ps) := by
  constructor
  · intro k hk
    simp only [removeGrantedPermissions, permissionsDidChangePerms_eq] at hk ⊢
    exact h.1 k (removePermissions_mem _ _ _ _ hk)
  · intro p hp
    simp only [removeGrantedPermissions, permissionsDidChangePerms_eq] at hp ⊢
    exact h.2 p hp

lemma disjoint_removeDeniedPermissions {P U : Type} [DecidableEq P]
    (ctx : Ctx P U) (ps : List String) (h : ctxDisjoint ctx) :
    ctxDisjoint (removeDeniedPermissions ctx ps) := by
  constructor
  · intro k hk
    simp only [removeDeniedPermissions, permissionsDidChangePerms_eq] at hk ⊢
    cases hb : keyMem (removePermissions ctx.m_deniedPermissions ps
        ctx.m_nextDeniedPermissionsExpirationDate).1 k with
    | false => rfl
    | true =>
      have hd := removePermissions_mem _ _ _ _ hb
      rw [h.1 k hk] at hd
      simp at hd
  · intro p hp
    simp only [removeDeniedPermissions, permissionsDidChangePerms_eq] at hp ⊢
    exact h.2 p hp

lemma disjoint_removeGrantedPermissionMatchPatterns {P U : Type} [DecidableEq P]
    (I : PatternIface P U) (ctx : Ctx P U) (ps : List P) (eqOnly : Bool)
    (h : ctxDisjoint ctx) :
    ctxDisjoint (removeGrantedPermissionMatchPatterns I ctx ps eqOnly) := by
  constructor
  · intro k hk
    simp only [removeGrantedPermissionMatchPatterns,
      permissionsDidChangePats_eq] at hk ⊢
    split at hk <;> split <;> exact h.1 k hk
  · intro p hp
    simp only [removeGrantedPermissionMatchPatterns,
      permissionsDidChangePats_eq] at hp ⊢
    split at hp <;> split <;>
      exact h.2 p (removePermissionMatchPatterns_mem I _ _ _ _ _ hp)

lemma disjoint_removeDeniedPermissionMatchPatterns {P U : Type} [DecidableEq P]
    (I : PatternIface P U) (ctx : Ctx P U) (ps : List P) (eqOnly : Bool)
    (h : ctxDisjoint ctx) :
    ctxDisjoint (removeDeniedPermissionMatchPatterns I ctx ps eqOnly) := by
  constructor
  · intro k hk
    simp only [removeDeniedPermissionMatchPatterns,
      permissionsDidChangePats_eq] at hk ⊢
    split at hk <;> split <;> exact h.1 k hk
  · intro p hp
    simp only [removeDeniedPermissionMatchPatterns,
      permissionsDidChangePats_eq] at hp ⊢
    split at hp <;> split <;>
    · cases hb : keyMem (removePermissionMatchPatterns I
        ctx.m_deniedPermissionMatchPatterns ps eqOnly
        ctx.m_nextDeniedPermissionMatchPatternsExpirationDate).1 p with
      | false => rfl
      | true =>
        have hd := removePermissionMatchPatterns_mem I _ _ _ _ _ hb
        rw [h.2 p hp] at hd
        simp at hd

lemma disjoint_grantedPermissionsAccess {P U : Type} [DecidableEq P]
    (ctx : Ctx P U) (now : Int) (h : ctxDisjoint ctx) :
    ctxDisjoint (grantedPermissions ctx now) := by
  constructor
  · intro k hk
    simp only [grantedPermissions, permissionsDidChangePerms_eq] at hk ⊢
    exact h.1 k (removeExpired_mem _ _ _ _ hk)
  · intro p hp
    simp only [grantedPermissions, permissionsDidChangePerms_eq] at hp ⊢
    exact h.2 p hp

lemma disjoint_deniedPermissionsAccess {P U : Type} [DecidableEq P]
    (ctx : Ctx P U) (now : Int) (h : ctxDisjoint ctx) :
    ctxDisjoint (deniedPermissions ctx now) := by
  constructor
  · intro k hk
    simp only [deniedPermissions, permissionsDidChangePerms_eq] at hk ⊢
    cases hb : keyMem (removeExpired ctx.m_deniedPermissions
        ctx.m_nextDeniedPermissionsExpirationDate now).1 k with
    | false => rfl
    | true =>
      have hd := removeExpired_mem _ _ _ _ hb
      rw [h.1 k hk] at hd
      simp at hd
  · intro p hp
    simp only [deniedPermissions, permissionsDidChangePerms_eq] at hp ⊢
    exact h.2 p hp

lemma disjoint_grantedPermissionMatchPatternsAccess {P U : Type}
    [DecidableEq P] (ctx : Ctx P U) (now : Int) (h : ctxDisjoint ctx) :
    ctxDisjoint (grantedPermissionMatchPatterns ctx now) := by
  constructor
  · intro k hk
    simp only [grantedPermissionMatchPatterns,
      permissionsDidChangePats_eq] at hk ⊢
    split at hk <;> split <;> exact h.1 k hk
  · intro p hp
    simp only [grantedPermissionMatchPatterns,
      permissionsDidChangePats_eq] at hp ⊢
    split at hp <;> split <;> exact h.2 p (removeExpired_mem _ _ _ _ hp)

lemma disjoint_deniedPermissionMatchPatternsAccess {P U : Type} [DecidableEq P]
    (ctx : Ctx P U) (now : Int) (h : ctxDisjoint ctx) :
    ctxDisjoint (deniedPermissionMatchPatterns ctx now) := by
  constructor
  · intro k hk
    simp only [deniedPermissionMatchPatterns,
      permissionsDidChangePats_eq] at hk ⊢
    split at hk <;> split <;> exact h.1 k hk
  · intro p hp
    simp only [deniedPermissionMatchPatterns,
      permissionsDidChangePats_eq] at hp ⊢
    split at hp <;> split <;>
    · cases hb : keyMem (removeExpired ctx.m_deniedPermissionMatchPatterns
        ctx.m_nextDeniedPermissionMatchPatternsExpirationDate now).1 p with
      | false => rfl
      | true =>
        have hd := removeExpired_mem _ _ _ _ hb
        rw [h.2 p hp] at hd
        simp at hd

lemma disjoint_applyOp {P U : Type} [DecidableEq P] (I : PatternIface P U)
    (op : PermOp P) (ctx : Ctx P U) (h : ctxDisjoint ctx) :
    ctxDisjoint (applyOp I op ctx) := by
  cases op with
  | grantPerms ps exp => exact disjoint_grantPermissions ctx ps exp h
  | denyPerms ps exp => exact disjoint_denyPermissions ctx ps exp h
  | grantPats ps exp eq =>
    exact disjoint_grantPermissionMatchPatterns I ctx ps exp eq h
  | denyPats ps exp eq =>
    exact disjoint_denyPermissionMatchPatterns I ctx ps exp eq h
  | setPermState s p exp =>
    cases s <;>
      simp only [applyOp, setPermissionStateForPermission] <;>
      first
      | exact h
      | exact disjoint_denyPermissions ctx [p] exp h
      | exact disjoint_grantPermissions ctx [p] exp h
      | exact disjoint_removeDeniedPermissions _ [p]
          (disjoint_removeGrantedPermissions ctx [p] h)
  | setPatState s pat exp =>
    cases s <;>
      simp only [applyOp, setPermissionStateForPattern] <;>
      first
      | exact h
      | exact disjoint_denyPermissionMatchPatterns I ctx [pat] exp _ h
      | exact disjoint_grantPermissionMatchPatterns I ctx [pat] exp _ h
      | exact disjoint_removeDeniedPermissionMatchPatterns I _ [pat] _
          (disjoint_removeGrantedPermissionMatchPatterns I ctx [pat] _ h)
  | removeGrantedPerms ps => exact disjoint_removeGrantedPermissions ctx ps h
  | removeDeniedPerms ps => exact disjoint_removeDeniedPermissions ctx ps h
  | removeGrantedPats ps eq =>
    exact disjoint_removeGrantedPermissionMatchPatterns I ctx ps eq h
  | removeDeniedPats ps eq =>
    exact disjoint_removeDeniedPermissionMatchPatterns I ctx ps eq h
  | accessGrantedPerms now => exact disjoint_grantedPermissionsAccess ctx now h
  | accessDeniedPerms now => exact disjoint_deniedPermissionsAccess ctx now h
  | accessGrantedPats now =>
    exact disjoint_grantedPermissionMatchPatternsAccess ctx now h
  | accessDeniedPats now =>
    exact disjoint_deniedPermissionMatchPatternsAccess ctx now h

lemma disjoint_initCtx {P U : Type} [DecidableEq P] :
    ctxDisjoint (initCtx : Ctx P U) := by
  constructor
  · intro k hk; simp [initCtx, keyMem] at hk
  · intro p hp; simp [initCtx, keyMem] at hp

lemma unexpired_eq_self {K : Type} (m : List (K × ETime)) (now : Int)
    (h : ∀ kv ∈ m, kv.2.gtNow now = true) : unexpired m now = m :=
  filter_eq_self_of_all m _ h

lemma grantedPermissions_map {P U : Type} (ctx : Ctx P U) (now : Int) :
    (grantedPermissions ctx now).m_grantedPermissions =
      (removeExpired ctx.m_grantedPermissions
        ctx.m_nextGrantedPermissionsExpirationDate now).1 := by
  simp only [grantedPermissions, permissionsDidChangePerms_eq]

lemma grantedPermissions_next {P U : Type} (ctx : Ctx P U) (now : Int) :
    (grantedPermissions ctx now).m_nextGrantedPermissionsExpirationDate =
      (removeExpired ctx.m_grantedPermissions
        ctx.m_nextGrantedPermissionsExpirationDate now).2.1 := by
  simp only [grantedPermissions, permissionsDidChangePerms_eq]

lemma deniedPermissions_map {P U : Type} (ctx : Ctx P U) (now : Int) :
    (deniedPermissions ctx now).m_deniedPermissions =
      (removeExpired ctx.m_deniedPermissions
        ctx.m_nextDeniedPermissionsExpirationDate now).1 := by
  simp only [deniedPermissions, permissionsDidChangePerms_eq]

lemma deniedPermissions_next {P U : Type} (ctx : Ctx P U) (now : Int) :
    (deniedPermissions ctx now).m_nextDeniedPermissionsExpirationDate =
      (removeExpired ctx.m_deniedPermissions
        ctx.m_nextDeniedPermissionsExpirationDate now).2.1 := by
  simp only [deniedPermissions, permissionsDidChangePerms_eq]

lemma grantedPermissionMatchPatterns_map {P U : Type} (ctx : Ctx P U)
    (now : Int) :
    (grantedPermissionMatchPatterns ctx now).m_grantedPermissionMatchPatterns =
      (removeExpired ctx.m_grantedPermissionMatchPatterns
        ctx.m_nextGrantedPermissionMatchPatternsExpirationDate now).1 := by
  simp only [grantedPermissionMatchPatterns, permissionsDidChangePats_eq]
  split <;> rfl

lemma grantedPermissionMatchPatterns_next {P U : Type} (ctx : Ctx P U)
    (now : Int) :
    (grantedPermissionMatchPatterns ctx
        now).m_nextGrantedPermissionMatchPatternsExpirationDate =
      (removeExpired ctx.m_grantedPermissionMatchPatterns
        ctx.m_nextGrantedPermissionMatchPatternsExpirationDate now).2.1 := by
  simp only [grantedPermissionMatchPatterns, permissionsDidChangePats_eq]
  split <;> rfl

lemma deniedPermissionMatchPatterns_map {P U : Type} (ctx : Ctx P U)
    (now : Int) :
    (deniedPermissionMatchPatterns ctx now).m_deniedPermissionMatchPatterns =
      (removeExpired ctx.m_deniedPermissionMatchPatterns
        ctx.m_nextDeniedPermissionMatchPatternsExpirationDate now).1 := by
  simp only [deniedPermissionMatchPatterns, permissionsDidChangePats_eq]
  split <;> rfl

lemma deniedPermissionMatchPatterns_next {P U : Type} (ctx : Ctx P U)
    (now : Int) :
    (deniedPermissionMatchPatterns ctx
        now).m_nextDeniedPermissionMatchPatternsExpirationDate =
      (removeExpired ctx.m_deniedPermissionMatchPatterns
        ctx.m_nextDeniedPermissionMatchPatternsExpirationDate now).2.1 := by
  simp only [deniedPermissionMatchPatterns, permissionsDidChangePats_eq]
  split <;> rfl

lemma removeExpired_amended {K : Type} (m : List (K × ETime)) (next : WTime)
    (now : Int) (h : nextLB next m) :
    (removeExpired m next now).1 = unexpired m now ∧
    (sweepSkipped next now = false →
      (removeExpired m next now).2.1 =
        (minExpOf (removeExpired m next now).1).toW) ∧
    (sweepSkipped next now = true →
      (removeExpired m next now).2.1 = next) := by
  refine ⟨removeExpired_kept_of_LB m next now h, ?_, ?_⟩
  · intro hs
    rw [removeExpired_of_swept m next now hs]
    simp [sweepMap_min]
  · intro hs
    rw [removeExpired_of_skipped m next now hs]

/-- Claim C3: in every state reachable from a fresh context through the grant,
deny, `setPermissionState` and remove operations (including the expiry-sweeping
accessors), the granted and denied permission maps share no permission key, and
the granted and denied match-pattern maps share no pattern key: granting
removes each newly granted entry from the corresponding denied map and denying
removes each newly denied entry from the corresponding granted map. -/
theorem granted_denied_disjoint_reachable {P U : Type} [DecidableEq P]
    (I : PatternIface P U) (ops : List (PermOp P)) :
    ctxDisjoint (runOps (U := U) I ops) := by
  suffices h : ∀ c : Ctx P U, ctxDisjoint c →
      ctxDisjoint (ops.foldl (fun c op => applyOp I op c) c) from
    h initCtx disjoint_initCtx
  induction ops with
  | nil => intro c hc; exact hc
  | cons op rest ih =>
    intro c hc
    exact ih _ (disjoint_applyOp I op c hc)

/-- Claim C5: `hasInjectedContentForURL(url)` returns true exactly when some
injected content entry has no exclude match pattern matching the URL and at
least one include match pattern matching it. -/
theorem hasInjectedContentForURL_iff {P U : Type} (I : PatternIface P U)
    (contents : List (InjectedContentEntry P)) (u : U) :
    hasInjectedContentForURL I contents u = true ↔
      ∃ ic ∈ contents,
        (∀ p ∈ ic.excludeMatchPatterns, I.matchesURL p u = false) ∧
        ∃ p ∈ ic.includeMatchPatterns, I.matchesURL p u = true := by
  simp [hasInjectedContentForURL, List.any_eq_true, Bool.and_eq_true,
    Bool.not_eq_true', List.any_eq_false]

/-- Claim C9 (code bug): granting a permission that was previously denied
removes it from the denied permissions map, but `removeDeniedPermissions` in
the GLib backend passes the granted-match-patterns removal signal constant, so
the emitted change signal is
`notify::granted-permission-match-patterns-were-removed`, not the
`denied-permissions-were-removed` signal the claim (and the registered signal
list) prescribe; moreover every emitted name carries a `notify::` prefix and
the backend's match-pattern granted/denied constants are singular
(`permission-match-pattern-were-...`), so none of the emitted names is a
registered signal name. -/
theorem removeDeniedPermissions_signal_bug :
    c9After.emittedSignals =
      [emittedSignalName permissionsWereDeniedSignal,
       emittedSignalName grantedPermissionMatchPatternsWereRemovedSignal,
       emittedSignalName permissionsWereGrantedSignal] ∧
    grantedPermissionMatchPatternsWereRemovedSignal ≠
      deniedPermissionsWereRemovedSignal ∧
    (∀ s ∈ c9After.emittedSignals, s ∉ registeredContextSignals) ∧
    permissionMatchPatternsWereGrantedSignal ∉ registeredContextSignals ∧
    permissionMatchPatternsWereDeniedSignal ∉ registeredContextSignals := by
  decide

/-- Claim C2 (counterexample): after granting "a" until time 10, sweeping at
time 0, re-granting "a" with expiration 5 (the map keeps 10, the tracked date
drops to 5) and accessing the granted permissions at time 3, the access
returns early and the tracked next-expiration date (5) is NOT the minimum
expiration among the remaining entries (10), contradicting the claim that
every access leaves the tracked date equal to that minimum. -/
theorem expiry_sweep_tracked_min_counterexample :
    c2Trace.m_grantedPermissions = [("a", ETime.fin 10)] ∧
    c2Trace.m_nextGrantedPermissionsExpirationDate = WTime.fin 5 ∧
    (minExpOf c2Trace.m_grantedPermissions).toW = WTime.fin 10 ∧
    c2Trace.m_nextGrantedPermissionsExpirationDate ≠
      (minExpOf c2Trace.m_grantedPermissions).toW := by
  decide

/-- Claim C2 (amended): under the maintained lower-bound invariant on the
tracked next-expiration dates, every access through the four map accessors
leaves the map holding exactly the entries whose expiration is strictly after
the current time; when the access actually sweeps (the tracked date is NaN or
has passed) the tracked date is retracked to the minimum expiration among the
remaining entries (infinity when none remain), while an access that returns
early keeps the previous tracked date, which may be strictly below that
minimum. -/
theorem expiry_sweep_amended {P U : Type} (ctx : Ctx P U) (now : Int)
    (h : ctxNextLB ctx) :
    ((grantedPermissions ctx now).m_grantedPermissions =
        unexpired ctx.m_grantedPermissions now ∧
      (sweepSkipped ctx.m_nextGrantedPermissionsExpirationDate now = false →
        (grantedPermissions ctx now).m_nextGrantedPermissionsExpirationDate =
          (minExpOf (grantedPermissions ctx now).m_grantedPermissions).toW) ∧
      (sweepSkipped ctx.m_nextGrantedPermissionsExpirationDate now = true →
        (grantedPermissions ctx now).m_nextGrantedPermissionsExpirationDate =
          ctx.m_nextGrantedPermissionsExpirationDate)) ∧
    ((deniedPermissions ctx now).m_deniedPermissions =
        unexpired ctx.m_deniedPermissions now ∧
      (sweepSkipped ctx.m_nextDeniedPermissionsExpirationDate now = false →
        (deniedPermissions ctx now).m_nextDeniedPermissionsExpirationDate =
          (minExpOf (deniedPermissions ctx now).m_deniedPermissions).toW) ∧
      (sweepSkipped ctx.m_nextDeniedPermissionsExpirationDate now = true →
        (deniedPermissions ctx now).m_nextDeniedPermissionsExpirationDate =
          ctx.m_nextDeniedPermissionsExpirationDate)) ∧
    ((grantedPermissionMatchPatterns ctx now).m_grantedPermissionMatchPatterns =
        unexpired ctx.m_grantedPermissionMatchPatterns now ∧
      (sweepSkipped ctx.m_nextGrantedPermissionMatchPatternsExpirationDate now
          = false →
        (grantedPermissionMatchPatterns ctx
            now).m_nextGrantedPermissionMatchPatternsExpirationDate =
          (minExpOf (grantedPermissionMatchPatterns ctx
            now).m_grantedPermissionMatchPatterns).toW) ∧
      (sweepSkipped ctx.m_nextGrantedPermissionMatchPatternsExpirationDate now
          = true →
        (grantedPermissionMatchPatterns ctx
            now).m_nextGrantedPermissionMatchPatternsExpirationDate =
          ctx.m_nextGrantedPermissionMatchPatternsExpirationDate)) ∧
    ((deniedPermissionMatchPatterns ctx now).m_deniedPermissionMatchPatterns =
        unexpired ctx.m_deniedPermissionMatchPatterns now ∧
      (sweepSkipped ctx.m_nextDeniedPermissionMatchPatternsExpirationDate now
          = false →
        (deniedPermissionMatchPatterns ctx
            now).m_nextDeniedPermissionMatchPatternsExpirationDate =
          (minExpOf (deniedPermissionMatchPatterns ctx
            now).m_deniedPermissionMatchPatterns).toW) ∧
      (sweepSkipped ctx.m_nextDeniedPermissionMatchPatternsExpirationDate now
          = true →
        (deniedPermissionMatchPatterns ctx
            now).m_nextDeniedPermissionMatchPatternsExpirationDate =
          ctx.m_nextDeniedPermissionMatchPatternsExpirationDate)) := by
  obtain ⟨h1, h2, h3, h4⟩ := h
  refine ⟨?_, ?_, ?_, ?_⟩
  · obtain ⟨a1, a2, a3⟩ := removeExpired_amended ctx.m_grantedPermissions
      ctx.m_nextGrantedPermissionsExpirationDate now h1
    rw [grantedPermissions_map, grantedPermissions_next]
    exact ⟨a1, a2, a3⟩
  · obtain ⟨a1, a2, a3⟩ := removeExpired_amended ctx.m_deniedPermissions
      ctx.m_nextDeniedPermissionsExpirationDate now h2
    rw [deniedPermissions_map, deniedPermissions_next]
    exact ⟨a1, a2, a3⟩
  · obtain ⟨a1, a2, a3⟩ := removeExpired_amended
      ctx.m_grantedPermissionMatchPatterns
      ctx.m_nextGrantedPermissionMatchPatternsExpirationDate now h3
    rw [grantedPermissionMatchPatterns_map, grantedPermissionMatchPatterns_next]
    exact ⟨a1, a2, a3⟩
  · obtain ⟨a1, a2, a3⟩ := removeExpired_amended
      ctx.m_deniedPermissionMatchPatterns
      ctx.m_nextDeniedPermissionMatchPatternsExpirationDate now h4
    rw [deniedPermissionMatchPatterns_map, deniedPermissionMatchPatterns_next]
    exact ⟨a1, a2, a3⟩

/-- Witness for the amended expiry-sweep claim on a concrete context (one
granted entry expiring at 10, tracked date 10, accessed at time 20). -/
theorem expiry_sweep_amended_witness :
    (grantedPermissions
        (⟨[("a", ETime.fin 10)], [], [], [], WTime.fin 10, .nan, .nan, .nan,
          [], [], []⟩ : Ctx CPat String) 20).m_grantedPermissions =
      unexpired [("a", ETime.fin 10)] 20 :=
  (expiry_sweep_amended
    (⟨[("a", ETime.fin 10)], [], [], [], WTime.fin 10, .nan, .nan, .nan,
      [], [], []⟩ : Ctx CPat String) 20
    (by
      refine ⟨Or.inr ?_, Or.inl rfl, Or.inl rfl, Or.inl rfl⟩
      intro kv hkv
      simp only [List.mem_singleton] at hkv
      subst hkv
      decide)).1.1

/-- Claim C7 (counterexample): with "tabs" already granted until time 10,
`setPermissionState(GrantedExplicitly, "tabs", 5)` does NOT store the given
expiration date: `HashMap::add` leaves the existing entry untouched, so the
granted map still maps "tabs" to 10, contradicting the claim that the call
adds the permission with the given expiration date. -/
theorem setPermissionState_expiration_counterexample :
    c7Ctx.m_grantedPermissions = [("tabs", ETime.fin 10)] ∧
    c7After.m_grantedPermissions = [("tabs", ETime.fin 10)] ∧
    mapGetD c7After.m_grantedPermissions "tabs" ETime.inf ≠ ETime.fin 5 := by
  decide

/-- Claim C7 (amended): `setPermissionState` on a single permission only
touches that permission's entries.  Unknown removes it from both maps;
GrantedExplicitly adds it to the granted map with the given expiration only
when it is not already present (an existing entry keeps its prior expiration
and the denied map is then left untouched) and removes it from the denied map
when newly added; DeniedExplicitly symmetrically; entries for all other
permissions are unchanged (the maps are filtered only at the given key). -/
theorem setPermissionState_frame_amended {P U : Type} (ctx : Ctx P U)
    (p : String) (exp : ETime) :
    ((setPermissionStateForPermission ctx .unknown p exp).m_grantedPermissions =
        ctx.m_grantedPermissions.filter (fun kv => !decide (kv.1 = p)) ∧
      (setPermissionStateForPermission ctx .unknown p exp).m_deniedPermissions =
        ctx.m_deniedPermissions.filter (fun kv => !decide (kv.1 = p))) ∧
    ((keyMem ctx.m_grantedPermissions p = false →
        (setPermissionStateForPermission ctx .grantedExplicitly p
            exp).m_grantedPermissions =
          ctx.m_grantedPermissions ++ [(p, exp)] ∧
        (setPermissionStateForPermission ctx .grantedExplicitly p
            exp).m_deniedPermissions =
          ctx.m_deniedPermissions.filter (fun kv => !decide (kv.1 = p))) ∧
      (keyMem ctx.m_grantedPermissions p = true →
        (setPermissionStateForPermission ctx .grantedExplicitly p
            exp).m_grantedPermissions = ctx.m_grantedPermissions ∧
        (setPermissionStateForPermission ctx .grantedExplicitly p
            exp).m_deniedPermissions = ctx.m_deniedPermissions)) ∧
    ((keyMem ctx.m_deniedPermissions p = false →
        (setPermissionStateForPermission ctx .deniedExplicitly p
            exp).m_deniedPermissions =
          ctx.m_deniedPermissions ++ [(p, exp)] ∧
        (setPermissionStateForPermission ctx .deniedExplicitly p
            exp).m_grantedPermissions =
          ctx.m_grantedPermissions.filter (fun kv => !decide (kv.1 = p))) ∧
      (keyMem ctx.m_deniedPermissions p = true →
        (setPermissionStateForPermission ctx .deniedExplicitly p
            exp).m_deniedPermissions = ctx.m_deniedPermissions ∧
        (setPermissionStateForPermission ctx .deniedExplicitly p
            exp).m_grantedPermissions = ctx.m_grantedPermissions)) := by
  have hemp : ([p] : List String).isEmpty = false := rfl
  refine ⟨⟨?_, ?_⟩, ⟨?_, ?_⟩, ⟨?_, ?_⟩⟩
  · simp only [setPermissionStateForPermission, removeDeniedPermissions,
      removeGrantedPermissions, permissionsDidChangePerms_eq]
    exact removePermissions_single_kept _ p _
  · simp only [setPermissionStateForPermission, removeDeniedPermissions,
      removeGrantedPermissions, permissionsDidChangePerms_eq]
    exact removePermissions_single_kept _ p _
  · intro hmem
    simp only [setPermissionStateForPermission, grantPermissions, hemp,
      Bool.false_eq_true, if_false, addAllScan_single, hmem, if_true,
      List.isEmpty_cons, removeDeniedPermissions, permissionsDidChangePerms_eq]
    refine ⟨?_, removePermissions_single_kept _ p _⟩
    trivial
  · intro hmem
    simp only [setPermissionStateForPermission, grantPermissions, hemp,
      Bool.false_eq_true, if_false, addAllScan_single, hmem, if_true,
      List.isEmpty_nil]
    refine ⟨?_, ?_⟩ <;> trivial
  · intro hmem
    simp only [setPermissionStateForPermission, denyPermissions, hemp,
      Bool.false_eq_true, if_false, addAllScan_single, hmem, if_true,
      List.isEmpty_cons, removeGrantedPermissions, permissionsDidChangePerms_eq]
    refine ⟨?_, removePermissions_single_kept _ p _⟩
    trivial
  · intro hmem
    simp only [setPermissionStateForPermission, denyPermissions, hemp,
      Bool.false_eq_true, if_false, addAllScan_single, hmem, if_true,
      List.isEmpty_nil]
    refine ⟨?_, ?_⟩ <;> trivial

/-- Witness for the amended `setPermissionState` frame claim: re-granting
"tabs" (already granted in `c7Ctx`) leaves the granted map unchanged. -/
theorem setPermissionState_frame_amended_witness :
    (setPermissionStateForPermission c7Ctx PermState.grantedExplicitly "tabs"
        (ETime.fin 5)).m_grantedPermissions = c7Ctx.m_grantedPermissions :=
  ((setPermissionState_frame_amended c7Ctx "tabs" (ETime.fin 5)).2.1.2
    (by decide)).1

/-- Claim C6: `hasAccessToAllURLs()` is true exactly when some currently
granted, non-expired permission match pattern matches all URLs, and
`hasAccessToAllHosts()` exactly when some such pattern matches all hosts
(given the tracked-date lower-bound invariant); in particular both are false —
and hence the GLib getters `get_has_access_to_all_uris` / `_hosts` return
FALSE — when the granted match-pattern map is empty. -/
theorem hasAccessToAll_iff {P U : Type} (I : PatternIface P U) (ctx : Ctx P U)
    (now : Int)
    (h : nextLB ctx.m_nextGrantedPermissionMatchPatternsExpirationDate
      ctx.m_grantedPermissionMatchPatterns) :
    ((hasAccessToAllURLs I ctx now).1 = true ↔
      ∃ pe ∈ ctx.m_grantedPermissionMatchPatterns,
        pe.2.gtNow now = true ∧ I.matchesAllURLs pe.1 = true) ∧
    ((hasAccessToAllHosts I ctx now).1 = true ↔
      ∃ pe ∈ ctx.m_grantedPermissionMatchPatterns,
        pe.2.gtNow now = true ∧ I.matchesAllHosts pe.1 = true) ∧
    (ctx.m_grantedPermissionMatchPatterns = [] →
      (hasAccessToAllURLs I ctx now).1 = false ∧
      (hasAccessToAllHosts I ctx now).1 = false) := by
  have hm : (grantedPermissionMatchPatterns ctx
      now).m_grantedPermissionMatchPatterns =
      unexpired ctx.m_grantedPermissionMatchPatterns now := by
    rw [grantedPermissionMatchPatterns_map]
    exact removeExpired_kept_of_LB _ _ _ h
  refine ⟨?_, ?_, ?_⟩
  · simp only [hasAccessToAllURLs, currentPermissionMatchPatterns, hm]
    simp [List.any_map, List.any_eq_true, unexpired, List.mem_filter,
      and_assoc, Function.comp]
    constructor
    · rintro ⟨x, ⟨a, b, hab, hg, rfl⟩, hp⟩
      exact ⟨a, b, hab, hg, hp⟩
    · rintro ⟨a, b, hab, hg, hp⟩
      exact ⟨a, ⟨a, b, hab, hg, rfl⟩, hp⟩
  · simp only [hasAccessToAllHosts, currentPermissionMatchPatterns, hm]
    simp [List.any_map, List.any_eq_true, unexpired, List.mem_filter,
      and_assoc, Function.comp]
    constructor
    · rintro ⟨x, ⟨a, b, hab, hg, rfl⟩, hp⟩
      exact ⟨a, b, hab, hg, hp⟩
    · rintro ⟨a, b, hab, hg, hp⟩
      exact ⟨a, ⟨a, b, hab, hg, rfl⟩, hp⟩
  · intro hnil
    constructor
    · simp only [hasAccessToAllURLs, currentPermissionMatchPatterns, hm, hnil]
      simp [unexpired]
    · simp only [hasAccessToAllHosts, currentPermissionMatchPatterns, hm, hnil]
      simp [unexpired]

/-- Witness for the all-URL-access claim: in `c6Ctx` the wildcard pattern is
granted until time 10, so at time 0 the context has access to all URLs. -/
theorem hasAccessToAll_iff_witness :
    (hasAccessToAllURLs cIface c6Ctx 0).1 = true :=
  (hasAccessToAll_iff cIface c6Ctx 0 (Or.inl rfl)).1.mpr (by decide)

lemma ifEmpty_none_iff {A : Type} (l : List A) :
    (if l.isEmpty then (none : Option (List A)) else some l) = none ↔
      l = [] := by
  cases l <;> simp

lemma ifEmpty_some {A : Type} (l l' : List A)
    (h : (if l.isEmpty then (none : Option (List A)) else some l) = some l') :
    l' = l := by
  cases l <;> simp_all

/-- Claim C10: each GLib permission-list getter returns NULL (`none`) exactly
when its map has no unexpired entries, and every entry of a returned list has
an expiration date strictly after the time of access (under the tracked-date
lower-bound invariant). -/
theorem glib_getters_null_and_unexpired {P U : Type} (ctx : Ctx P U)
    (now : Int) (h : ctxNextLB ctx) :
    (((getGrantedPermissionsAPI ctx now).1 = none ↔
        unexpired ctx.m_grantedPermissions now = []) ∧
      (∀ l, (getGrantedPermissionsAPI ctx now).1 = some l →
        ∀ kv ∈ l, kv.2.gtNow now = true)) ∧
    (((getDeniedPermissionsAPI ctx now).1 = none ↔
        unexpired ctx.m_deniedPermissions now = []) ∧
      (∀ l, (getDeniedPermissionsAPI ctx now).1 = some l →
        ∀ kv ∈ l, kv.2.gtNow now = true)) ∧
    (((getGrantedPermissionMatchPatternsAPI ctx now).1 = none ↔
        unexpired ctx.m_grantedPermissionMatchPatterns now = []) ∧
      (∀ l, (getGrantedPermissionMatchPatternsAPI ctx now).1 = some l →
        ∀ kv ∈ l, kv.2.gtNow now = true)) ∧
    (((getDeniedPermissionMatchPatternsAPI ctx now).1 = none ↔
        unexpired ctx.m_deniedPermissionMatchPatterns now = []) ∧
      (∀ l, (getDeniedPermissionMatchPatternsAPI ctx now).1 = some l →
        ∀ kv ∈ l, kv.2.gtNow now = true)) := by
  obtain ⟨h1, h2, h3, h4⟩ := h
  have hm1 : (grantedPermissions ctx now).m_grantedPermissions =
      unexpired ctx.m_grantedPermissions now := by
    rw [grantedPermissions_map]; exact removeExpired_kept_of_LB _ _ _ h1
  have hm2 : (deniedPermissions ctx now).m_deniedPermissions =
      unexpired ctx.m_deniedPermissions now := by
    rw [deniedPermissions_map]; exact removeExpired_kept_of_LB _ _ _ h2
  have hm3 : (grantedPermissionMatchPatterns ctx
      now).m_grantedPermissionMatchPatterns =
      unexpired ctx.m_grantedPermissionMatchPatterns now := by
    rw [grantedPermissionMatchPatterns_map]
    exact removeExpired_kept_of_LB _ _ _ h3
  have hm4 : (deniedPermissionMatchPatterns ctx
      now).m_deniedPermissionMatchPatterns =
      unexpired ctx.m_deniedPermissionMatchPatterns now := by
    rw [deniedPermissionMatchPatterns_map]
    exact removeExpired_kept_of_LB _ _ _ h4
  refine ⟨⟨?_, ?_⟩, ⟨?_, ?_⟩, ⟨?_, ?_⟩, ⟨?_, ?_⟩⟩
  · simp only [getGrantedPermissionsAPI, hm1]
    exact ifEmpty_none_iff _
  · intro l hl kv hkv
    simp only [getGrantedPermissionsAPI, hm1] at hl
    rw [ifEmpty_some _ _ hl] at hkv
    exact (List.mem_filter.mp hkv).2
  · simp only [getDeniedPermissionsAPI, hm2]
    exact ifEmpty_none_iff _
  · intro l hl kv hkv
    simp only [getDeniedPermissionsAPI, hm2] at hl
    rw [ifEmpty_some _ _ hl] at hkv
    exact (List.mem_filter.mp hkv).2
  · simp only [getGrantedPermissionMatchPatternsAPI, hm3]
    exact ifEmpty_none_iff _
  · intro l hl kv hkv
    simp only [getGrantedPermissionMatchPatternsAPI, hm3] at hl
    rw [ifEmpty_some _ _ hl] at hkv
    exact (List.mem_filter.mp hkv).2
  · simp only [getDeniedPermissionMatchPatternsAPI, hm4]
    exact ifEmpty_none_iff _
  · intro l hl kv hkv
    simp only [getDeniedPermissionMatchPatternsAPI, hm4] at hl
    rw [ifEmpty_some _ _ hl] at hkv
    exact (List.mem_filter.mp hkv).2

/-- Witness for the GLib getter claim: on `c10Ctx` at time 7 the denied
permission ("cookies", expiring at 5) has expired, so the getter returns
NULL. -/
theorem glib_getters_null_and_unexpired_witness :
    (getDeniedPermissionsAPI c10Ctx 7).1 = none :=
  (glib_getters_null_and_unexpired c10Ctx 7
    ⟨Or.inl rfl, Or.inl rfl, Or.inl rfl, Or.inl rfl⟩).2.1.1.mpr (by decide)

lemma cacheResultAndReturn_fst {P U : Type} [DecidableEq U] (ctx : Ctx P U)
    (u : U) (s : PermState) : (cacheResultAndReturn ctx u s).1 = s := by
  simp only [cacheResultAndReturn]
  split
  · rfl
  · split <;> rfl

/-- Claim C8 (counterexample): on a freshly created context,
`webkit_web_extension_context_has_access_to_uri` does NOT return FALSE for
every URI: the extension's own base URL is implicitly granted
(`isURLForThisExtension` short-circuits to `GrantedImplicitly`), so the call
returns TRUE for it. -/
theorem fresh_context_access_own_url_counterexample :
    (hasPermissionForURL cEnvExt cIface initCtx "webkit-extension://abc/" none
      noOpts 0).1 = true := by
  decide

/-- Claim C8 (amended): on a freshly created context (before any grant or
denial), `has_permission` returns FALSE for every permission string;
`has_access_to_uri` returns FALSE for every URI other than the extension's own
(extension URLs are implicitly granted); and
`permission_status_for_permission` returns RequestedExplicitly exactly for the
supported permissions requested by the manifest, and Unknown for every other
permission. -/
theorem fresh_context_defaults_amended {P U : Type} [DecidableEq U]
    (env : ExtEnv P U) (I : PatternIface P U) (now : Int) :
    (∀ p, (hasPermissionForPermission env (initCtx : Ctx P U) p none noOpts
      now).1 = false) ∧
    (∀ u, env.urlForThisExtension u = false →
      (hasPermissionForURL env I initCtx u none noOpts now).1 = false) ∧
    (∀ p, ((permissionStateForPermission env (initCtx : Ctx P U) p none noOpts
          now).1 = .requestedExplicitly ↔
        env.supportedPermissions.any (fun q => decide (q = p)) = true ∧
          env.hasRequestedPermission p = true) ∧
      (¬(env.supportedPermissions.any (fun q => decide (q = p)) = true ∧
          env.hasRequestedPermission p = true) →
        (permissionStateForPermission env (initCtx : Ctx P U) p none noOpts
          now).1 = .unknown)) := by
  refine ⟨?_, ?_, ?_⟩
  · intro p
    cases hs : env.supportedPermissions.any (fun q => decide (q = p)) with
    | false =>
      simp [hasPermissionForPermission, permissionStateForPermission, hs]
    | true =>
      simp [hasPermissionForPermission, permissionStateForPermission, hs,
        deniedPermissions, grantedPermissions, removeExpired, sweepMap,
        initCtx, keyMem, permissionsDidChangePerms_eq, WTime.isNan]
  · intro u hu
    cases he : env.urlIsEmpty u with
    | true => simp [hasPermissionForURL, permissionStateForURL, he]
    | false =>
      cases hv : env.urlHasValidScheme u with
      | false => simp [hasPermissionForURL, permissionStateForURL, he, hu, hv]
      | true =>
        simp [hasPermissionForURL, permissionStateForURL, he, hu, hv,
          grantedPermissionMatchPatterns, deniedPermissionMatchPatterns,
          removeExpired, sweepMap, initCtx, permissionsDidChangePats_eq,
          WTime.isNan, resolveAndCache, anySpecificHostMatch, anyAllHostsMatch,
          cacheResultAndReturn_fst, noOpts]
  · intro p
    cases hs : env.supportedPermissions.any (fun q => decide (q = p)) with
    | false =>
      constructor
      · simp [permissionStateForPermission, hs]
      · intro _
        simp [permissionStateForPermission, hs]
    | true =>
      cases hr : env.hasRequestedPermission p with
      | true =>
        constructor
        · simp [permissionStateForPermission, hs, hr, deniedPermissions,
            grantedPermissions, removeExpired, sweepMap, initCtx, keyMem,
            permissionsDidChangePerms_eq, WTime.isNan, noOpts]
        · intro hc
          exact absurd ⟨rfl, rfl⟩ hc
      | false =>
        constructor
        · simp [permissionStateForPermission, hs, hr, deniedPermissions,
            grantedPermissions, removeExpired, sweepMap, initCtx, keyMem,
            permissionsDidChangePerms_eq, WTime.isNan, noOpts]
        · intro _
          simp [permissionStateForPermission, hs, hr, deniedPermissions,
            grantedPermissions, removeExpired, sweepMap, initCtx, keyMem,
            permissionsDidChangePerms_eq, WTime.isNan, noOpts]

/-- Witness for the amended fresh-context claim on the concrete environment:
an ordinary HTTPS URL is not accessible on a fresh context. -/
theorem fresh_context_defaults_amended_witness :
    (hasPermissionForURL cEnv cIface initCtx "https://example.com/" none noOpts
      0).1 = false :=
  (fresh_context_defaults_amended cEnv cIface 0).2.1 "https://example.com/" rfl

lemma doubleSweep_cache_mem {P U : Type} (ctx : Ctx P U) (now : Int) (u : U)
    (h : u ∉ ctx.m_cachedPermissionURLs) :
    u ∉ (deniedPermissionMatchPatterns (grantedPermissionMatchPatterns ctx now)
      now).m_cachedPermissionURLs := by
  rcases deniedPermissionMatchPatterns_cache
    (grantedPermissionMatchPatterns ctx now) now with h2 | h2
  · rw [h2]
    rcases grantedPermissionMatchPatterns_cache ctx now with h1 | h1
    · rw [h1]; exact h
    · rw [h1]; simp
  · rw [h2]; simp

/-- Claim C1: URL permission resolution checks denied patterns before granted
patterns and host-specific patterns before all-hosts wildcard patterns: a URL
matched by a host-specific pattern of the (swept) denied map resolves to
DeniedExplicitly regardless of the granted map; absent such a match, a
host-specific granted match resolves to GrantedExplicitly even when an
all-hosts denied pattern matches; and when only all-hosts patterns match, a
matching denied wildcard resolves to DeniedImplicitly regardless of matching
granted wildcards. -/
theorem permissionState_url_precedence {P U : Type} [DecidableEq U]
    (env : ExtEnv P U) (I : PatternIface P U) (ctx : Ctx P U) (u : U)
    (now : Int)
    (hne : env.urlIsEmpty u = false) (hft : env.urlForThisExtension u = false)
    (hvs : env.urlHasValidScheme u = true)
    (hcache : u ∉ ctx.m_cachedPermissionURLs) :
    ((∃ pe ∈ (deniedPermissionMatchPatterns
        (grantedPermissionMatchPatterns ctx now)
        now).m_deniedPermissionMatchPatterns,
        I.matchesAllHosts pe.1 = false ∧ I.matchesURL pe.1 u = true) →
      (permissionStateForURL env I ctx u none noOpts now).1 =
        .deniedExplicitly) ∧
    ((∀ pe ∈ (deniedPermissionMatchPatterns
        (grantedPermissionMatchPatterns ctx now)
        now).m_deniedPermissionMatchPatterns,
        I.matchesAllHosts pe.1 = false → I.matchesURL pe.1 u = false) →
      (∃ pe ∈ (deniedPermissionMatchPatterns
        (grantedPermissionMatchPatterns ctx now)
        now).m_grantedPermissionMatchPatterns,
        I.matchesAllHosts pe.1 = false ∧ I.matchesURL pe.1 u = true) →
      (permissionStateForURL env I ctx u none noOpts now).1 =
        .grantedExplicitly) ∧
    ((∀ pe ∈ (deniedPermissionMatchPatterns
        (grantedPermissionMatchPatterns ctx now)
        now).m_deniedPermissionMatchPatterns,
        I.matchesAllHosts pe.1 = false → I.matchesURL pe.1 u = false) →
      (∀ pe ∈ (deniedPermissionMatchPatterns
        (grantedPermissionMatchPatterns ctx now)
        now).m_grantedPermissionMatchPatterns,
        I.matchesAllHosts pe.1 = false → I.matchesURL pe.1 u = false) →
      (∃ pe ∈ (deniedPermissionMatchPatterns
        (grantedPermissionMatchPatterns ctx now)
        now).m_deniedPermissionMatchPatterns,
        I.matchesAllHosts pe.1 = true ∧ I.matchesURL pe.1 u = true) →
      (permissionStateForURL env I ctx u none noOpts now).1 =
        .deniedImplicitly) := by
  set c2 := deniedPermissionMatchPatterns (grantedPermissionMatchPatterns ctx
    now) now with hc2
  have hmem := doubleSweep_cache_mem ctx now u hcache
  have hany : c2.m_cachedPermissionURLs.any (fun x => decide (x = u)) = false := by
    cases hb : c2.m_cachedPermissionURLs.any (fun x => decide (x = u)) with
    | false => rfl
    | true =>
      exfalso
      rw [List.any_eq_true] at hb
      obtain ⟨x, hx, hxx⟩ := hb
      rw [decide_eq_true_eq] at hxx
      rw [hxx] at hx
      exact hmem hx
  have hunfold : permissionStateForURL env I ctx u none noOpts now =
      resolveAndCache env I c2 u none noOpts now := by
    simp only [permissionStateForURL, hne, hft, hvs, ← hc2, hany]
    rfl
  refine ⟨?_, ?_, ?_⟩
  · intro hd
    have ha : anySpecificHostMatch I c2.m_deniedPermissionMatchPatterns u
        = true := by
      rw [anySpecificHostMatch, List.any_eq_true]
      obtain ⟨pe, hpe, h1, h2⟩ := hd
      exact ⟨pe, hpe, by simp [h1, h2]⟩
    rw [hunfold]
    simp [resolveAndCache, ha, cacheResultAndReturn_fst]
  · intro hnd hg
    have hna : anySpecificHostMatch I c2.m_deniedPermissionMatchPatterns u
        = false := by
      rw [anySpecificHostMatch, List.any_eq_false]
      intro pe hpe
      cases hah : I.matchesAllHosts pe.1 with
      | true => simp [hah]
      | false => simp [hah, hnd pe hpe hah]
    have hga : anySpecificHostMatch I c2.m_grantedPermissionMatchPatterns u
        = true := by
      rw [anySpecificHostMatch, List.any_eq_true]
      obtain ⟨pe, hpe, h1, h2⟩ := hg
      exact ⟨pe, hpe, by simp [h1, h2]⟩
    rw [hunfold]
    simp [resolveAndCache, hna, hga, cacheResultAndReturn_fst]
  · intro hnd hng hd
    have hna : anySpecificHostMatch I c2.m_deniedPermissionMatchPatterns u
        = false := by
      rw [anySpecificHostMatch, List.any_eq_false]
      intro pe hpe
      cases hah : I.matchesAllHosts pe.1 with
      | true => simp [hah]
      | false => simp [hah, hnd pe hpe hah]
    have hnga : anySpecificHostMatch I c2.m_grantedPermissionMatchPatterns u
        = false := by
      rw [anySpecificHostMatch, List.any_eq_false]
      intro pe hpe
      cases hah : I.matchesAllHosts pe.1 with
      | true => simp [hah]
      | false => simp [hah, hng pe hpe hah]
    have hda : anyAllHostsMatch I c2.m_deniedPermissionMatchPatterns u
        = true := by
      rw [anyAllHostsMatch, List.any_eq_true]
      obtain ⟨pe, hpe, h1, h2⟩ := hd
      exact ⟨pe, hpe, by simp [h1, h2]⟩
    rw [hunfold]
    simp [resolveAndCache, hna, hnga, hda, cacheResultAndReturn_fst]

/-- Witness for the URL precedence claim: in `c1Ctx` the host-specific denied
pattern for `https://example.com/` wins over the granted all-hosts wildcard. -/
theorem permissionState_url_precedence_witness :
    (permissionStateForURL cEnv cIface c1Ctx "https://example.com/" none noOpts
      0).1 = PermState.deniedExplicitly :=
  (permissionState_url_precedence cEnv cIface c1Ctx "https://example.com/" 0
    (by decide) rfl rfl (by simp [c1Ctx, initCtx])).1 (by decide)

lemma requestedPatternsState_some_isRequested {P U : Type}
    (I : PatternIface P U) (pats : List P) (u : U) (s : PermState)
    (h : requestedPatternsState I pats u = some s) :
    isRequestedState s = true := by
  induction pats with
  | nil => simp [requestedPatternsState] at h
  | cons p rest ih =>
    simp only [requestedPatternsState] at h
    split at h
    · injection h with h; subst h; rfl
    · split at h
      · injection h with h; subst h; rfl
      · exact ih h

lemma specFresh_skip_char {P U : Type} (env : ExtEnv P U)
    (I : PatternIface P U) (ctx : Ctx P U) (u : U) (now : Int) :
    specFreshPermissionState env I ctx u true now =
      (if isRequestedState (specFreshPermissionState env I ctx u false now)
       then .unknown
       else specFreshPermissionState env I ctx u false now) := by
  cases h1 : env.urlIsEmpty u with
  | true => simp [specFreshPermissionState, h1, isRequestedState]
  | false =>
  cases h2 : env.urlForThisExtension u with
  | true => simp [specFreshPermissionState, h1, h2, isRequestedState]
  | false =>
  cases h3 : env.urlHasValidScheme u with
  | false => simp [specFreshPermissionState, h1, h2, h3, isRequestedState]
  | true =>
  cases hp1 : anySpecificHostMatch I
      (unexpired ctx.m_deniedPermissionMatchPatterns now) u with
  | true => simp [specFreshPermissionState, h1, h2, h3, hp1, isRequestedState]
  | false =>
  cases hp2 : anySpecificHostMatch I
      (unexpired ctx.m_grantedPermissionMatchPatterns now) u with
  | true =>
    simp [specFreshPermissionState, h1, h2, h3, hp1, hp2, isRequestedState]
  | false =>
  cases hp3 : anyAllHostsMatch I
      (unexpired ctx.m_deniedPermissionMatchPatterns now) u with
  | true =>
    simp [specFreshPermissionState, h1, h2, h3, hp1, hp2, hp3,
      isRequestedState]
  | false =>
  cases hp4 : anyAllHostsMatch I
      (unexpired ctx.m_grantedPermissionMatchPatterns now) u with
  | true =>
    simp [specFreshPermissionState, h1, h2, h3, hp1, hp2, hp3, hp4,
      isRequestedState]
  | false =>
  cases hreq : requestedPatternsState I env.allRequestedMatchPatterns u with
  | some s =>
    have hrs := requestedPatternsState_some_isRequested I _ u s hreq
    simp [specFreshPermissionState, h1, h2, h3, hp1, hp2, hp3, hp4, hreq, hrs]
  | none =>
  cases hw : specHasPermission env ctx "webNavigation" now with
  | true =>
    simp [specFreshPermissionState, h1, h2, h3, hp1, hp2, hp3, hp4, hreq, hw,
      isRequestedState]
  | false =>
  cases hdn : specHasPermission env ctx "declarativeNetRequestFeedback" now with
  | true =>
    simp [specFreshPermissionState, h1, h2, h3, hp1, hp2, hp3, hp4, hreq, hw,
      hdn, isRequestedState]
  | false =>
    simp [specFreshPermissionState, h1, h2, h3, hp1, hp2, hp3, hp4, hreq, hw,
      hdn, isRequestedState]

lemma specFresh_eq_of_maps {P U : Type} (env : ExtEnv P U)
    (I : PatternIface P U) (a b : Ctx P U) (u : U) (skip : Bool) (now : Int)
    (h1 : a.m_deniedPermissionMatchPatterns = b.m_deniedPermissionMatchPatterns)
    (h2 : a.m_grantedPermissionMatchPatterns = b.m_grantedPermissionMatchPatterns)
    (h3 : a.m_deniedPermissions = b.m_deniedPermissions)
    (h4 : a.m_grantedPermissions = b.m_grantedPermissions) :
    specFreshPermissionState env I a u skip now =
      specFreshPermissionState env I b u skip now := by
  simp only [specFreshPermissionState, specHasPermission, h1, h2, h3, h4]

lemma hasPermissionForPermission_spec {P U : Type} (env : ExtEnv P U)
    (ctx : Ctx P U) (p : String) (opts : StateOptions) (now : Int)
    (hg : ∀ kv ∈ ctx.m_grantedPermissions, kv.2.gtNow now = true)
    (hd : ∀ kv ∈ ctx.m_deniedPermissions, kv.2.gtNow now = true) :
    (hasPermissionForPermission env ctx p none opts now).1 =
      specHasPermission env ctx p now ∧
    (hasPermissionForPermission env ctx p none opts now).2.m_grantedPermissions
      = ctx.m_grantedPermissions ∧
    (hasPermissionForPermission env ctx p none opts now).2.m_deniedPermissions
      = ctx.m_deniedPermissions ∧
    (hasPermissionForPermission env ctx p none opts
      now).2.m_grantedPermissionMatchPatterns =
      ctx.m_grantedPermissionMatchPatterns ∧
    (hasPermissionForPermission env ctx p none opts
      now).2.m_deniedPermissionMatchPatterns =
      ctx.m_deniedPermissionMatchPatterns ∧
    (hasPermissionForPermission env ctx p none opts
      now).2.m_cachedPermissionURLs = ctx.m_cachedPermissionURLs ∧
    (hasPermissionForPermission env ctx p none opts
      now).2.m_cachedPermissionStates = ctx.m_cachedPermissionStates := by
  obtain ⟨nd, hcd⟩ := deniedPermissions_eq_of_unexpired ctx now hd
  have hgd : ∀ kv ∈ (deniedPermissions ctx now).m_grantedPermissions,
      kv.2.gtNow now = true := by
    rw [hcd]; exact hg
  obtain ⟨ng, hcg⟩ := grantedPermissions_eq_of_unexpired
    (deniedPermissions ctx now) now hgd
  rw [hcd] at hcg
  have hud : unexpired ctx.m_deniedPermissions now = ctx.m_deniedPermissions :=
    unexpired_eq_self _ _ hd
  have hug : unexpired ctx.m_grantedPermissions now = ctx.m_grantedPermissions :=
    unexpired_eq_self _ _ hg
  cases hs : env.supportedPermissions.any (fun q => decide (q = p)) with
  | false =>
    refine ⟨?_, ?_, ?_, ?_, ?_, ?_, ?_⟩ <;>
      simp [hasPermissionForPermission, permissionStateForPermission, hs,
        specHasPermission]
  | true =>
    cases hk1 : keyMem ctx.m_deniedPermissions p with
    | true =>
      refine ⟨?_, ?_, ?_, ?_, ?_, ?_, ?_⟩ <;>
      · simp only [hasPermissionForPermission, permissionStateForPermission]
        rw [hcd]
        simp [hs, hk1, specHasPermission, hud]
    | false =>
      cases hk2 : keyMem ctx.m_grantedPermissions p with
      | true =>
        refine ⟨?_, ?_, ?_, ?_, ?_, ?_, ?_⟩ <;>
        · simp only [hasPermissionForPermission, permissionStateForPermission]
          rw [hcd, hcg]
          simp [hs, hk1, hk2, specHasPermission, hud, hug]
      | false =>
        refine ⟨?_, ?_, ?_, ?_, ?_, ?_, ?_⟩ <;>
        · simp only [hasPermissionForPermission, permissionStateForPermission]
          rw [hcd, hcg]
          simp [hs, hk1, hk2, specHasPermission, hud, hug]

lemma specHasPermission_congr {P U : Type} (env : ExtEnv P U) (a b : Ctx P U)
    (p : String) (now : Int)
    (h3 : a.m_deniedPermissions = b.m_deniedPermissions)
    (h4 : a.m_grantedPermissions = b.m_grantedPermissions) :
    specHasPermission env a p now = specHasPermission env b p now := by
  simp only [specHasPermission, h3, h4]

lemma length_filter_ne {α : Type _} [DecidableEq α] (l : List α) (u : α)
    (hu : u ∈ l) :
    (l.filter (fun x => !decide (x = u))).length + 1 ≤ l.length := by
  induction l with
  | nil => cases hu
  | cons a t ih =>
    by_cases ha : a = u
    · subst ha
      have he : List.filter (fun x => !decide (x = a)) (a :: t) =
          t.filter (fun x => !decide (x = a)) := by
        simp [List.filter_cons]
      rw [he]
      have hlf := List.length_filter_le (fun x => !decide (x = a)) t
      simp only [List.length_cons]
      omega
    · have hut : u ∈ t := by
        rcases List.mem_cons.mp hu with h | h
        · exact absurd h.symm ha
        · exact h
      have he : List.filter (fun x => !decide (x = u)) (a :: t) =
          a :: t.filter (fun x => !decide (x = u)) := by
        simp [List.filter_cons, ha]
      rw [he]
      have := ih hut
      simp only [List.length_cons]
      omega

lemma cacheResultAndReturn_triple {P U : Type} [DecidableEq U] (ctx : Ctx P U)
    (u : U) (s : PermState)
    (h : ctx.m_cachedPermissionURLs.length ≤ maximumCachedPermissionResults) :
    (cacheResultAndReturn ctx u s).1 = s ∧
    (cacheResultAndReturn ctx u s).2.m_cachedPermissionURLs.length ≤
      maximumCachedPermissionResults ∧
    (u ∉ ctx.m_cachedPermissionURLs →
      ctx.m_cachedPermissionURLs.length = maximumCachedPermissionResults →
      (cacheResultAndReturn ctx u s).2.m_cachedPermissionURLs =
        ctx.m_cachedPermissionURLs.tail ++ [u]) := by
  refine ⟨cacheResultAndReturn_fst ctx u s, ?_, ?_⟩
  · simp only [cacheResultAndReturn]
    split
    · rename_i hle
      exact hle
    · rename_i hgt
      split
      · simp
      · rename_i f rest heq
        have h1 := List.length_filter_le
          (fun x => !decide (x = u)) ctx.m_cachedPermissionURLs
        have h2 : ((ctx.m_cachedPermissionURLs.filter
            (fun x => !decide (x = u))) ++ [u]).length = rest.length + 1 := by
          rw [heq]
          simp
        simp only [List.length_append, List.length_cons, List.length_nil] at h2
        show rest.length ≤ maximumCachedPermissionResults
        omega
  · intro hu hl
    have hfilter : ctx.m_cachedPermissionURLs.filter (fun x => !decide (x = u))
        = ctx.m_cachedPermissionURLs := by
      apply filter_eq_self_of_all
      intro x hx
      show (!decide (x = u)) = true
      simp only [Bool.not_eq_true', decide_eq_false_iff_not]
      intro he
      exact hu (he ▸ hx)
    simp only [cacheResultAndReturn, hfilter]
    split
    · rename_i hle
      exfalso
      simp only [List.length_append, List.length_cons, List.length_nil, hl]
        at hle
      omega
    · split
      · rename_i heq
        exfalso
        simp at heq
      · rename_i f rest heq
        cases hctx : ctx.m_cachedPermissionURLs with
        | nil =>
          exfalso
          rw [hctx] at hl
          simp [maximumCachedPermissionResults] at hl
        | cons a t =>
          rw [hctx] at heq
          simp only [List.cons_append] at heq
          injection heq with h1 h2
          simp only [List.tail_cons, ← h2]

lemma cache_triple_glue {P U : Type} [DecidableEq U] (ctx0 ctx : Ctx P U)
    (u : U) (s : PermState)
    (hfields : ctx0.m_cachedPermissionURLs = ctx.m_cachedPermissionURLs)
    (hlen : ctx.m_cachedPermissionURLs.length ≤ maximumCachedPermissionResults) :
    (cacheResultAndReturn ctx0 u s).1 = s ∧
    (cacheResultAndReturn ctx0 u s).2.m_cachedPermissionURLs.length ≤
      maximumCachedPermissionResults ∧
    (u ∉ ctx.m_cachedPermissionURLs →
      ctx.m_cachedPermissionURLs.length = maximumCachedPermissionResults →
      (cacheResultAndReturn ctx0 u s).2.m_cachedPermissionURLs =
        ctx.m_cachedPermissionURLs.tail ++ [u]) := by
  have h0 := cacheResultAndReturn_triple ctx0 u s (by rw [hfields]; exact hlen)
  refine ⟨h0.1, h0.2.1, ?_⟩
  intro h1 h2
  rw [← hfields] at h1 h2 ⊢
  exact h0.2.2 h1 h2

lemma resolveAndCache_full {P U : Type} [DecidableEq U] (env : ExtEnv P U)
    (I : PatternIface P U) (ctx : Ctx P U) (u : U) (skip : Bool) (now : Int)
    (hg : ∀ kv ∈ ctx.m_grantedPermissions, kv.2.gtNow now = true)
    (hd : ∀ kv ∈ ctx.m_deniedPermissions, kv.2.gtNow now = true)
    (hgp : ∀ kv ∈ ctx.m_grantedPermissionMatchPatterns, kv.2.gtNow now = true)
    (hdp : ∀ kv ∈ ctx.m_deniedPermissionMatchPatterns, kv.2.gtNow now = true)
    (he1 : env.urlIsEmpty u = false)
    (he2 : env.urlForThisExtension u = false)
    (he3 : env.urlHasValidScheme u = true)
    (hlen : ctx.m_cachedPermissionURLs.length ≤ maximumCachedPermissionResults) :
    (resolveAndCache env I ctx u none ⟨skip, false, false⟩ now).1 =
      specFreshPermissionState env I ctx u skip now ∧
    (resolveAndCache env I ctx u none ⟨skip, false, false⟩
      now).2.m_cachedPermissionURLs.length ≤ maximumCachedPermissionResults ∧
    (u ∉ ctx.m_cachedPermissionURLs →
      ctx.m_cachedPermissionURLs.length = maximumCachedPermissionResults →
      (resolveAndCache env I ctx u none ⟨skip, false, false⟩
        now).2.m_cachedPermissionURLs =
        ctx.m_cachedPermissionURLs.tail ++ [u]) := by
  have hudp : unexpired ctx.m_deniedPermissionMatchPatterns now =
      ctx.m_deniedPermissionMatchPatterns := unexpired_eq_self _ _ hdp
  have hugp : unexpired ctx.m_grantedPermissionMatchPatterns now =
      ctx.m_grantedPermissionMatchPatterns := unexpired_eq_self _ _ hgp
  cases hp1 : anySpecificHostMatch I ctx.m_deniedPermissionMatchPatterns u with
  | true =>
    have hr : resolveAndCache env I ctx u none ⟨skip, false, false⟩ now =
        cacheResultAndReturn ctx u .deniedExplicitly := by
      simp [resolveAndCache, hp1]
    have hs : specFreshPermissionState env I ctx u skip now =
        .deniedExplicitly := by
      simp [specFreshPermissionState, he1, he2, he3, hudp, hugp, hp1]
    rw [hr, hs]
    exact cache_triple_glue ctx ctx u _ rfl hlen
  | false =>
  cases hp2 : anySpecificHostMatch I ctx.m_grantedPermissionMatchPatterns u with
  | true =>
    have hr : resolveAndCache env I ctx u none ⟨skip, false, false⟩ now =
        cacheResultAndReturn ctx u .grantedExplicitly := by
      simp [resolveAndCache, hp1, hp2]
    have hs : specFreshPermissionState env I ctx u skip now =
        .grantedExplicitly := by
      simp [specFreshPermissionState, he1, he2, he3, hudp, hugp, hp1, hp2]
    rw [hr, hs]
    exact cache_triple_glue ctx ctx u _ rfl hlen
  | false =>
  cases hp3 : anyAllHostsMatch I ctx.m_deniedPermissionMatchPatterns u with
  | true =>
    have hr : resolveAndCache env I ctx u none ⟨skip, false, false⟩ now =
        cacheResultAndReturn ctx u .deniedImplicitly := by
      simp [resolveAndCache, hp1, hp2, hp3]
    have hs : specFreshPermissionState env I ctx u skip now =
        .deniedImplicitly := by
      simp [specFreshPermissionState, he1, he2, he3, hudp, hugp, hp1, hp2, hp3]
    rw [hr, hs]
    exact cache_triple_glue ctx ctx u _ rfl hlen
  | false =>
  cases hp4 : anyAllHostsMatch I ctx.m_grantedPermissionMatchPatterns u with
  | true =>
    have hr : resolveAndCache env I ctx u none ⟨skip, false, false⟩ now =
        cacheResultAndReturn ctx u .grantedImplicitly := by
      simp [resolveAndCache, hp1, hp2, hp3, hp4]
    have hs : specFreshPermissionState env I ctx u skip now =
        .grantedImplicitly := by
      simp [specFreshPermissionState, he1, he2, he3, hudp, hugp, hp1, hp2,
        hp3, hp4]
    rw [hr, hs]
    exact cache_triple_glue ctx ctx u _ rfl hlen
  | false =>
  cases skip with
  | true =>
    have hr : resolveAndCache env I ctx u none ⟨true, false, false⟩ now =
        cacheResultAndReturn ctx u .unknown := by
      simp [resolveAndCache, hp1, hp2, hp3, hp4]
    have hs : specFreshPermissionState env I ctx u true now = .unknown := by
      simp [specFreshPermissionState, he1, he2, he3, hudp, hugp, hp1, hp2,
        hp3, hp4]
    rw [hr, hs]
    exact cache_triple_glue ctx ctx u _ rfl hlen
  | false =>
  cases hreq : requestedPatternsState I env.allRequestedMatchPatterns u with
  | some s =>
    have hr : resolveAndCache env I ctx u none ⟨false, false, false⟩ now =
        cacheResultAndReturn ctx u s := by
      simp [resolveAndCache, hp1, hp2, hp3, hp4, hreq]
    have hs : specFreshPermissionState env I ctx u false now = s := by
      simp [specFreshPermissionState, he1, he2, he3, hudp, hugp, hp1, hp2,
        hp3, hp4, hreq]
    rw [hr, hs]
    exact cache_triple_glue ctx ctx u _ rfl hlen
  | none =>
    have spec1 := hasPermissionForPermission_spec env ctx "webNavigation"
      ⟨false, false, false⟩ now hg hd
    cases hwv : specHasPermission env ctx "webNavigation" now with
    | true =>
      have hr : resolveAndCache env I ctx u none ⟨false, false, false⟩ now =
          cacheResultAndReturn (hasPermissionForPermission env ctx
            "webNavigation" none ⟨false, false, false⟩ now).2 u
            .requestedImplicitly := by
        simp [resolveAndCache, hp1, hp2, hp3, hp4, hreq, spec1.1, hwv]
      have hs : specFreshPermissionState env I ctx u false now =
          .requestedImplicitly := by
        simp [specFreshPermissionState, he1, he2, he3, hudp, hugp, hp1, hp2,
          hp3, hp4, hreq, hwv]
      rw [hr, hs]
      exact cache_triple_glue _ ctx u _ spec1.2.2.2.2.2.1 hlen
    | false =>
      have hg1 : ∀ kv ∈ (hasPermissionForPermission env ctx "webNavigation"
          none ⟨false, false, false⟩ now).2.m_grantedPermissions,
          kv.2.gtNow now = true := by
        rw [spec1.2.1]; exact hg
      have hd1 : ∀ kv ∈ (hasPermissionForPermission env ctx "webNavigation"
          none ⟨false, false, false⟩ now).2.m_deniedPermissions,
          kv.2.gtNow now = true := by
        rw [spec1.2.2.1]; exact hd
      have spec2 := hasPermissionForPermission_spec env
        (hasPermissionForPermission env ctx "webNavigation" none
          ⟨false, false, false⟩ now).2 "declarativeNetRequestFeedback"
        ⟨false, false, false⟩ now hg1 hd1
      have hs2 : specHasPermission env (hasPermissionForPermission env ctx
          "webNavigation" none ⟨false, false, false⟩ now).2
          "declarativeNetRequestFeedback" now =
          specHasPermission env ctx "declarativeNetRequestFeedback" now :=
        specHasPermission_congr env _ ctx _ now spec1.2.2.1 spec1.2.1
      have hurl2 : (hasPermissionForPermission env (hasPermissionForPermission
          env ctx "webNavigation" none ⟨false, false, false⟩ now).2
          "declarativeNetRequestFeedback" none ⟨false, false, false⟩
          now).2.m_cachedPermissionURLs = ctx.m_cachedPermissionURLs := by
        rw [spec2.2.2.2.2.2.1, spec1.2.2.2.2.2.1]
      cases hdv : specHasPermission env ctx "declarativeNetRequestFeedback"
          now with
      | true =>
        have hr : resolveAndCache env I ctx u none ⟨false, false, false⟩ now =
            cacheResultAndReturn (hasPermissionForPermission env
              (hasPermissionForPermission env ctx "webNavigation" none
                ⟨false, false, false⟩ now).2 "declarativeNetRequestFeedback"
              none ⟨false, false, false⟩ now).2 u .requestedImplicitly := by
          simp [resolveAndCache, hp1, hp2, hp3, hp4, hreq, spec1.1, hwv,
            spec2.1, hs2, hdv]
        have hs : specFreshPermissionState env I ctx u false now =
            .requestedImplicitly := by
          simp [specFreshPermissionState, he1, he2, he3, hudp, hugp, hp1,
            hp2, hp3, hp4, hreq, hwv, hdv]
        rw [hr, hs]
        exact cache_triple_glue _ ctx u _ hurl2 hlen
      | false =>
        have hr : resolveAndCache env I ctx u none ⟨false, false, false⟩ now =
            cacheResultAndReturn (hasPermissionForPermission env
              (hasPermissionForPermission env ctx "webNavigation" none
                ⟨false, false, false⟩ now).2 "declarativeNetRequestFeedback"
              none ⟨false, false, false⟩ now).2 u .unknown := by
          simp [resolveAndCache, hp1, hp2, hp3, hp4, hreq, spec1.1, hwv,
            spec2.1, hs2, hdv]
        have hs : specFreshPermissionState env I ctx u false now =
            .unknown := by
          simp [specFreshPermissionState, he1, he2, he3, hudp, hugp, hp1,
            hp2, hp3, hp4, hreq, hwv, hdv]
        rw [hr, hs]
        exact cache_triple_glue _ ctx u _ hurl2 hlen

lemma mapGetD_of_keyMem {K V : Type} [DecidableEq K] (m : List (K × V)) (k : K)
    (d : V) (h : keyMem m k = true) : (k, mapGetD m k d) ∈ m := by
  simp only [keyMem, List.any_eq_true, decide_eq_true_eq] at h
  obtain ⟨kv, hmem, hk⟩ := h
  have hsome : (m.find? (fun kv => decide (kv.1 = k))).isSome := by
    rw [List.find?_isSome]
    exact ⟨kv, hmem, by simp [hk]⟩
  obtain ⟨kv', hfind⟩ := Option.isSome_iff_exists.mp hsome
  have h1 : kv' ∈ m := List.mem_of_find?_eq_some hfind
  have h2 : kv'.1 = k := by
    have := List.find?_some hfind
    simpa using this
  simp only [mapGetD, hfind]
  rw [← h2]
  simpa using h1

lemma patternSweeps_eq_of_unexpired {P U : Type} (ctx : Ctx P U) (now : Int)
    (hgp : ∀ kv ∈ ctx.m_grantedPermissionMatchPatterns, kv.2.gtNow now = true)
    (hdp : ∀ kv ∈ ctx.m_deniedPermissionMatchPatterns, kv.2.gtNow now = true) :
    ∃ n1 n2,
      deniedPermissionMatchPatterns (grantedPermissionMatchPatterns ctx now)
        now =
      { ctx with
        m_nextGrantedPermissionMatchPatternsExpirationDate := n1
        m_nextDeniedPermissionMatchPatternsExpirationDate := n2 } := by
  obtain ⟨n1, h1⟩ := grantedPermissionMatchPatterns_eq_of_unexpired ctx now hgp
  have hdp1 : ∀ kv ∈ (grantedPermissionMatchPatterns ctx
      now).m_deniedPermissionMatchPatterns, kv.2.gtNow now = true := by
    rw [h1]; exact hdp
  obtain ⟨n2, h2⟩ := deniedPermissionMatchPatterns_eq_of_unexpired _ now hdp1
  refine ⟨n1, n2, ?_⟩
  rw [h2, h1]

lemma hitListLen {U : Type} [DecidableEq U] (l : List U) (u : U)
    (humem : u ∈ l) (hlen : l.length ≤ maximumCachedPermissionResults) :
    ((l.filter (fun x => !decide (x = u))) ++ [u]).length ≤
      maximumCachedPermissionResults := by
  have := length_filter_ne l u humem
  simp only [List.length_append, List.length_cons, List.length_nil]
  omega

/-- Claim C4 (counterexample to the literal claim): the per-URL cache is not
transparent with respect to the permission maps.  With `webNavigation` granted
until time 10, a first query of `https://example.com/` at time 0 caches
`RequestedImplicitly`; a second query of the same URL at time 20 (after the
grant expired) is answered from the cache and still returns
`RequestedImplicitly`, while recomputing afresh from the current maps yields
`Unknown` (the cache is only cleared when match patterns change, not when
permissions change or expire). -/
theorem permission_cache_transparency_counterexample :
    c4SecondQuery.1 = PermState.requestedImplicitly ∧
    specFreshPermissionState cEnv cIface c4FirstQuery.2 "https://example.com/"
      false 20 = PermState.unknown ∧
    c4SecondQuery.1 ≠
      specFreshPermissionState cEnv cIface c4FirstQuery.2
        "https://example.com/" false 20 := by
  decide

/-- Claim C4 (amended): the per-URL permission cache is transparent and
bounded *provided the cached entries are consistent with the permission maps*:
on a context whose four permission maps hold no expired entries, whose cached
states all equal the state computed afresh from the maps, and whose cached URL
list is keyed in the state map and within the bound, `permissionState(URL)`
(no tab, at most the skip-requested option) returns exactly the state computed
afresh from the granted, denied and requested permission maps and patterns;
the cached URL list stays within `maximumCachedPermissionResults`; and when a
new URL arrives with the cache full, the least recently used (first) URL is
evicted. -/
theorem permission_cache_transparency_amended {P U : Type} [DecidableEq U]
    (env : ExtEnv P U) (I : PatternIface P U) (ctx : Ctx P U) (u : U)
    (skip : Bool) (now : Int)
    (hg : ∀ kv ∈ ctx.m_grantedPermissions, kv.2.gtNow now = true)
    (hd : ∀ kv ∈ ctx.m_deniedPermissions, kv.2.gtNow now = true)
    (hgp : ∀ kv ∈ ctx.m_grantedPermissionMatchPatterns, kv.2.gtNow now = true)
    (hdp : ∀ kv ∈ ctx.m_deniedPermissionMatchPatterns, kv.2.gtNow now = true)
    (he1 : env.urlIsEmpty u = false)
    (he2 : env.urlForThisExtension u = false)
    (he3 : env.urlHasValidScheme u = true)
    (Hcons : ∀ us ∈ ctx.m_cachedPermissionStates,
      us.2 = specFreshPermissionState env I ctx us.1 false now)
    (Hmem : ∀ u', u' ∈ ctx.m_cachedPermissionURLs →
      keyMem ctx.m_cachedPermissionStates u' = true)
    (hlen : ctx.m_cachedPermissionURLs.length ≤
      maximumCachedPermissionResults) :
    (permissionStateForURL env I ctx u none ⟨skip, false, false⟩ now).1 =
      specFreshPermissionState env I ctx u skip now ∧
    (permissionStateForURL env I ctx u none ⟨skip, false, false⟩
      now).2.m_cachedPermissionURLs.length ≤ maximumCachedPermissionResults ∧
    (u ∉ ctx.m_cachedPermissionURLs →
      ctx.m_cachedPermissionURLs.length = maximumCachedPermissionResults →
      (permissionStateForURL env I ctx u none ⟨skip, false, false⟩
        now).2.m_cachedPermissionURLs =
        ctx.m_cachedPermissionURLs.tail ++ [u]) := by
  obtain ⟨n1, n2, hc2⟩ := patternSweeps_eq_of_unexpired ctx now hgp hdp
  by_cases hhit :
      ctx.m_cachedPermissionURLs.any (fun x => decide (x = u)) = true
  · have humem : u ∈ ctx.m_cachedPermissionURLs := by
      rw [List.any_eq_true] at hhit
      obtain ⟨x, hx, hxe⟩ := hhit
      rw [decide_eq_true_eq] at hxe
      exact hxe ▸ hx
    have hkm := Hmem u humem
    have hstored := mapGetD_of_keyMem ctx.m_cachedPermissionStates u
      PermState.unknown hkm
    have hcs : mapGetD ctx.m_cachedPermissionStates u PermState.unknown =
        specFreshPermissionState env I ctx u false now := Hcons _ hstored
    cases skip with
    | true =>
      cases hA : isRequestedState
          (mapGetD ctx.m_cachedPermissionStates u PermState.unknown) with
      | true =>
        have hr : permissionStateForURL env I ctx u none ⟨true, false, false⟩
            now = (PermState.unknown, { ctx with
              m_nextGrantedPermissionMatchPatternsExpirationDate := n1
              m_nextDeniedPermissionMatchPatternsExpirationDate := n2
              m_cachedPermissionURLs :=
                (ctx.m_cachedPermissionURLs.filter
                  (fun x => !decide (x = u))) ++ [u] }) := by
          simp [permissionStateForURL, he1, he2, he3, hc2, hhit, hA]
        refine ⟨?_, ?_, ?_⟩
        · rw [hr, specFresh_skip_char, ← hcs, hA]
          simp
        · rw [hr]
          exact hitListLen _ u humem hlen
        · intro hnot _
          exact absurd humem hnot
      | false =>
        have hr : permissionStateForURL env I ctx u none ⟨true, false, false⟩
            now = (mapGetD ctx.m_cachedPermissionStates u PermState.unknown,
              { ctx with
                m_nextGrantedPermissionMatchPatternsExpirationDate := n1
                m_nextDeniedPermissionMatchPatternsExpirationDate := n2
                m_cachedPermissionURLs :=
                  (ctx.m_cachedPermissionURLs.filter
                    (fun x => !decide (x = u))) ++ [u] }) := by
          simp [permissionStateForURL, he1, he2, he3, hc2, hhit, hA]
        refine ⟨?_, ?_, ?_⟩
        · rw [hr, specFresh_skip_char, ← hcs, hA]
          simp
        · rw [hr]
          exact hitListLen _ u humem hlen
        · intro hnot _
          exact absurd humem hnot
    | false =>
      by_cases hU : mapGetD ctx.m_cachedPermissionStates u PermState.unknown
          = PermState.unknown
      · have hr : permissionStateForURL env I ctx u none ⟨false, false, false⟩
            now = resolveAndCache env I ({ ctx with
              m_nextGrantedPermissionMatchPatternsExpirationDate := n1
              m_nextDeniedPermissionMatchPatternsExpirationDate := n2 }) u
              none ⟨false, false, false⟩ now := by
          simp [permissionStateForURL, he1, he2, he3, hc2, hhit, hU]
        have hfull := resolveAndCache_full env I
          ({ ctx with
            m_nextGrantedPermissionMatchPatternsExpirationDate := n1
            m_nextDeniedPermissionMatchPatternsExpirationDate := n2 }) u
          false now (by simpa using hg) (by simpa using hd)
          (by simpa using hgp) (by simpa using hdp) he1 he2 he3
          (by simpa using hlen)
        refine ⟨?_, ?_, ?_⟩
        · rw [hr, hfull.1]
          exact specFresh_eq_of_maps env I _ ctx u false now rfl rfl rfl rfl
        · rw [hr]
          exact hfull.2.1
        · intro h1 h2
          rw [hr]
          simpa using hfull.2.2 (by simpa using h1) (by simpa using h2)
      · have hU' : decide (mapGetD ctx.m_cachedPermissionStates u
            PermState.unknown = PermState.unknown) = false := by
          simp [hU]
        have hr : permissionStateForURL env I ctx u none ⟨false, false, false⟩
            now = (mapGetD ctx.m_cachedPermissionStates u PermState.unknown,
              { ctx with
                m_nextGrantedPermissionMatchPatternsExpirationDate := n1
                m_nextDeniedPermissionMatchPatternsExpirationDate := n2
                m_cachedPermissionURLs :=
                  (ctx.m_cachedPermissionURLs.filter
                    (fun x => !decide (x = u))) ++ [u] }) := by
          simp [permissionStateForURL, he1, he2, he3, hc2, hhit, hU']
        refine ⟨?_, ?_, ?_⟩
        · rw [hr]
          exact hcs
        · rw [hr]
          exact hitListLen _ u humem hlen
        · intro hnot _
          exact absurd humem hnot
  · have hmiss : ctx.m_cachedPermissionURLs.any (fun x => decide (x = u))
        = false := by
      rw [Bool.not_eq_true] at hhit
      exact hhit
    have hr : permissionStateForURL env I ctx u none ⟨skip, false, false⟩
        now = resolveAndCache env I ({ ctx with
          m_nextGrantedPermissionMatchPatternsExpirationDate := n1
          m_nextDeniedPermissionMatchPatternsExpirationDate := n2 }) u
          none ⟨skip, false, false⟩ now := by
      simp [permissionStateForURL, he1, he2, he3, hc2, hmiss]
    have hfull := resolveAndCache_full env I
      ({ ctx with
        m_nextGrantedPermissionMatchPatternsExpirationDate := n1
        m_nextDeniedPermissionMatchPatternsExpirationDate := n2 }) u
      skip now (by simpa using hg) (by simpa using hd)
      (by simpa using hgp) (by simpa using hdp) he1 he2 he3
      (by simpa using hlen)
    refine ⟨?_, ?_, ?_⟩
    · rw [hr, hfull.1]
      exact specFresh_eq_of_maps env I _ ctx u skip now rfl rfl rfl rfl
    · rw [hr]
      exact hfull.2.1
    · intro h1 h2
      rw [hr]
      simpa using hfull.2.2 (by simpa using h1) (by simpa using h2)

/-- Claim C4 (witness for the amended theorem): on a fresh context all
hypotheses hold for the URL `https://example.com/`, and the query returns the
freshly computed state. -/
theorem permission_cache_transparency_amended_witness :
    (cEnv.urlIsEmpty "https://example.com/" = false ∧
     cEnv.urlForThisExtension "https://example.com/" = false ∧
     cEnv.urlHasValidScheme "https://example.com/" = true) ∧
    (permissionStateForURL cEnv cIface initCtx "https://example.com/" none
      ⟨false, false, false⟩ 0).1 =
      specFreshPermissionState cEnv cIface initCtx "https://example.com/"
        false 0 := by
  refine ⟨⟨by decide, by decide, by decide⟩, ?_⟩
  exact (permission_cache_transparency_amended cEnv cIface initCtx
    "https://example.com/" false 0 (by simp [initCtx]) (by simp [initCtx])
    (by simp [initCtx]) (by simp [initCtx]) (by decide) (by decide)
    (by decide) (by simp [initCtx]) (by simp [initCtx]) (by decide)).1
